import Mathlib

/-!
# still: launch gate, event loop and exit status of `main.c`

A shallow embedding of `src/main.c`.  The program is a single `main` whose
behaviour depends on what the C library, the kernel and the compositor answer;
those answers are explicit inputs here (`GetoptResult`, `Setup`, `Tick`), and
every call the program makes is recorded, in order, in a list of `Call`s.
-/

namespace Still

/-! ## Data model -/

/-- Modelled from the spec: `capture.h` is not part of the sources.  The four
capture states of §4.2; `PENDING` is the state of a zero-initialised overlay
(the spec: an overlay is created in state PENDING). -/
inductive capture_status
  | PENDING
  | WAITING
  | READY
  | FAILED
deriving DecidableEq, Repr

/-- Modelled from the spec: `overlay.h` is not part of the sources.  The fields
of `struct overlay` that `main.c` reads or writes (the back-reference to the
globals is the enclosing state). -/
structure overlay where
  wl_output : Nat
  wl_output_transform : Int
  capture_status : capture_status
deriving DecidableEq, Repr

/-- The `struct globals` of `main.c`: the five bound objects (`none` is the
null pointer of the zero-initialised struct) and the overlay array. -/
structure globals where
  wl_compositor : Option Nat
  wl_shm : Option Nat
  wp_viewporter : Option Nat
  wlr_layer_shell : Option Nat
  wlr_screencopy_manager : Option Nat
  overlays : List overlay
deriving DecidableEq, Repr

/-- The `struct globals globals = {0}` of line 105. -/
def globals_zero : globals :=
  { wl_compositor := none, wl_shm := none, wp_viewporter := none,
    wlr_layer_shell := none, wlr_screencopy_manager := none, overlays := [] }

def EXIT_SUCCESS : Int := 0

def EXIT_FAILURE : Int := 1

def SIGCHLD : Nat := 17

/-- The value of `sizeof(struct signalfd_siginfo)`. -/
def SIGINFO_SIZE : Int := 128

/-- The output stream of a `usage` call. -/
inductive Stream
  | stdout
  | stderr
deriving DecidableEq, Repr

/-- Every call `main` makes that a claim observes, with the value it returned
(or the argument it was given) where that matters. -/
inductive Call
  | usage (stream : Stream)
  | fprintf_stderr (msg : String)
  | perror (msg : String)
  | sigemptyset (ret : Int)
  | sigaddset (ret : Int)
  | sigprocmask (ret : Int)
  | signalfd (ret : Int)
  | wl_display_connect (connected : Bool)
  | wl_display_get_registry
  | wl_registry_add_listener
  | wl_display_prepare_read (ret : Int)
  | wl_display_flush (ret : Int)
  | poll (ret : Int)
  | wl_display_read_events (ret : Int)
  | wl_display_cancel_read
  | wl_display_dispatch_pending (ret : Int)
  | read (ret : Int)
  | waitpid (ret : Int)
  | psignal (sig : Nat)
  | wl_output_add_listener (i : Nat)
  | capture (overlay_cursor : Bool) (i : Nat)
  | fork (ret : Int)
  | execl (command : String) (ret : Option Int)
  | close
  | overlay_destroy (i : Nat)
  | array_free
  | wl_registry_destroy
  | zwlr_screencopy_manager_v1_destroy (obj : Option Nat)
  | zwlr_layer_shell_v1_destroy (obj : Option Nat)
  | wp_viewporter_destroy (obj : Option Nat)
  | wl_compositor_destroy (obj : Option Nat)
  | wl_shm_destroy (obj : Option Nat)
  | wl_display_disconnect
deriving DecidableEq, Repr

/-! ## Protocol events and their listeners -/

/-- An event delivered by `wl_display_dispatch_pending` to one of the
listeners. -/
inductive Event
  | global (name : Nat) (interface : String) (version : Nat)
  | global_remove (name : Nat)
  | output_geometry (i : Nat) (transform : Int)
  | output_mode (i : Nat)
  | output_done (i : Nat)
  | output_scale (i : Nat)
  | output_name (i : Nat)
  | output_description (i : Nat)
  | frame_ready (i : Nat)
  | frame_failed (i : Nat)
deriving DecidableEq, Repr

/-- Lines 18-49.  The proxy returned by `wl_registry_bind` is identified with
the global's name. -/
def registry_handle_global (g : globals) (name : Nat) (interface : String) : globals :=
  if interface = "wl_compositor" then { g with wl_compositor := some name }
  else if interface = "wl_shm" then { g with wl_shm := some name }
  else if interface = "wl_output" then
    { g with overlays := g.overlays ++
        [{ wl_output := name, wl_output_transform := 0,
           capture_status := capture_status.PENDING }] }
  else if interface = "wp_viewporter" then { g with wp_viewporter := some name }
  else if interface = "zwlr_layer_shell_v1" then { g with wlr_layer_shell := some name }
  else if interface = "zwlr_screencopy_manager_v1" then
    { g with wlr_screencopy_manager := some name }
  else g

/-- Lines 51-53. -/
def registry_handle_global_remove (g : globals) (_name : Nat) : globals := g

/-- Lines 60-67.  The output listener is attached in the gate scan, when the
overlay leaves PENDING (line 255); an event for a proxy without a listener is
dropped by the client library. -/
def output_handle_geometry (transform : Int) (o : overlay) : overlay :=
  if o.capture_status = capture_status.PENDING then o
  else { o with wl_output_transform := transform }

/-- Modelled from the spec: the frame listener lives in `capture.c`, which is
not part of the sources.  "WAITING → READY: triggered by a copy complete
notification"; a frame exists only for an overlay whose request was issued, and
the status never regresses, so the notification acts on a WAITING overlay
only. -/
def frame_handle_ready (o : overlay) : overlay :=
  if o.capture_status = capture_status.WAITING then
    { o with capture_status := capture_status.READY }
  else o

/-- Modelled from the spec: the frame listener lives in `capture.c`, which is
not part of the sources.  "WAITING → FAILED: triggered by a copy failed
notification"; terminal, and acting on a WAITING overlay only. -/
def frame_handle_failed (o : overlay) : overlay :=
  if o.capture_status = capture_status.WAITING then
    { o with capture_status := capture_status.FAILED }
  else o

/-- Modelled from the spec: `capture()` lives in `capture.c`, which is not part
of the sources.  "PENDING → WAITING: issue an asynchronous copy request,
carrying a cursor-inclusion flag"; the request itself is the `Call.capture`
entry of the trace. -/
def capture (_overlay_cursor : Bool) (o : overlay) : overlay :=
  { o with capture_status := capture_status.WAITING }

/-- The write `globals->overlays[i].field = ...` a listener performs through
its overlay pointer: `f` applied to the overlay at index `i`, if there is
one. -/
def update_overlay (f : overlay → overlay) : List overlay → Nat → List overlay
  | [], _ => []
  | o :: os, 0 => f o :: os
  | o :: os, i + 1 => o :: update_overlay f os i

/-- One event handed to its listener. -/
def handle_event (g : globals) : Event → globals
  | Event.global name interface _ => registry_handle_global g name interface
  | Event.global_remove name => registry_handle_global_remove g name
  | Event.output_geometry i transform =>
      { g with overlays := update_overlay (output_handle_geometry transform) g.overlays i }
  | Event.output_mode _ => g
  | Event.output_done _ => g
  | Event.output_scale _ => g
  | Event.output_name _ => g
  | Event.output_description _ => g
  | Event.frame_ready i => { g with overlays := update_overlay frame_handle_ready g.overlays i }
  | Event.frame_failed i => { g with overlays := update_overlay frame_handle_failed g.overlays i }

/-- The events of one `wl_display_dispatch_pending`, in order. -/
def dispatch_events (g : globals) (events : List Event) : globals :=
  events.foldl handle_event g

/-! ## Wait status (the macros of `<sys/wait.h>`) -/

/-- The macro `WTERMSIG(s) = s & 0x7f`. -/
def WTERMSIG (wstatus : Nat) : Nat := wstatus % 128

/-- The macro `WEXITSTATUS(s) = (s & 0xff00) >> 8`. -/
def WEXITSTATUS (wstatus : Nat) : Nat := (wstatus / 256) % 256

/-- The macro `WIFEXITED(s) = (WTERMSIG(s) == 0)`. -/
def WIFEXITED (wstatus : Nat) : Bool := WTERMSIG wstatus == 0

/-- The macro `WIFSIGNALED(s) = (((signed char) ((s & 0x7f) + 1) >> 1) > 0)`. -/
def WIFSIGNALED (wstatus : Nat) : Bool :=
  let x : Int := (WTERMSIG wstatus : Int) + 1
  let signed_char : Int := if x ≥ 128 then x - 256 else x
  decide (0 < signed_char / 2)

/-! ## The event loop -/

/-- What the environment answers during one iteration of the loop. -/
structure Tick where
  prepare_read : Int
  flush : Int
  poll : Int
  wl_display_pollin : Bool
  sigchld_pollin : Bool
  read_events : Int
  events : List Event
  dispatch_pending : Int
  read : Int
  ssi_signo : Nat
  waitpid : Int
  wstatus : Nat
  fork : Int
  execl : Option Int
deriving Repr

/-- The variables of `main` that live across iterations. -/
structure LoopState where
  globals : globals
  child_pid : Int
  status : Int
deriving DecidableEq, Repr

/-- How a piece of the loop body ends: falls through, `break`s, or never
returns because `execl` replaced the process image. -/
inductive Flow
  | next
  | brk
  | replaced
deriving DecidableEq, Repr

/-- State, control flow and calls of a piece of the loop body. -/
structure Step where
  state : LoopState
  flow : Flow
  calls : List Call
deriving Repr

/-- Sequencing: the second piece runs only when the first falls through. -/
def Step.andThen (x : Step) (f : LoopState → Step) : Step :=
  match x.flow with
  | Flow.next => { state := (f x.state).state, flow := (f x.state).flow,
                   calls := x.calls ++ (f x.state).calls }
  | Flow.brk => x
  | Flow.replaced => x

/-- The pattern `perror(...); status = EXIT_FAILURE; break;`. -/
def fail (s : LoopState) (calls : List Call) (msg : String) : Step :=
  { state := { s with status := EXIT_FAILURE }, flow := Flow.brk,
    calls := calls ++ [Call.perror msg] }

/-- Lines 181-214: prepare, flush, poll, read or cancel, dispatch. -/
def connection_phase (s : LoopState) (t : Tick) : Step :=
  if t.prepare_read = -1 then
    fail s [Call.wl_display_prepare_read t.prepare_read] "ERROR: wl_display_prepare_read()"
  else if t.flush = -1 then
    fail s [Call.wl_display_prepare_read t.prepare_read, Call.wl_display_flush t.flush]
      "ERROR: wl_display_flush()"
  else if t.poll = -1 then
    fail s [Call.wl_display_prepare_read t.prepare_read, Call.wl_display_flush t.flush,
      Call.poll t.poll] "ERROR: poll()"
  else if t.wl_display_pollin = true ∧ t.read_events = -1 then
    fail s [Call.wl_display_prepare_read t.prepare_read, Call.wl_display_flush t.flush,
      Call.poll t.poll, Call.wl_display_read_events t.read_events]
      "ERROR: wl_display_read_events()"
  else
    let s1 : LoopState := { s with globals := dispatch_events s.globals t.events }
    let calls : List Call :=
      [Call.wl_display_prepare_read t.prepare_read, Call.wl_display_flush t.flush,
       Call.poll t.poll,
       if t.wl_display_pollin then Call.wl_display_read_events t.read_events
       else Call.wl_display_cancel_read,
       Call.wl_display_dispatch_pending t.dispatch_pending]
    if t.dispatch_pending = -1 then fail s1 calls "ERROR: wl_display_dispatch_pending()"
    else { state := s1, flow := Flow.next, calls := calls }

/-- Lines 216-246: the child-termination notification. -/
def sigchld_phase (s : LoopState) (t : Tick) : Step :=
  if t.sigchld_pollin then
    if t.read ≠ SIGINFO_SIZE then
      fail s [Call.read t.read] "read(signal_poll_fd->fd)"
    else if t.ssi_signo = SIGCHLD then
      if t.waitpid = -1 then
        fail s [Call.read t.read, Call.waitpid t.waitpid] "ERROR: waitpid()"
      else if WIFEXITED t.wstatus then
        { state := { s with status := (WEXITSTATUS t.wstatus : Int) }, flow := Flow.brk,
          calls := [Call.read t.read, Call.waitpid t.waitpid] }
      else if WIFSIGNALED t.wstatus then
        { state := { s with status := -1 }, flow := Flow.brk,
          calls := [Call.read t.read, Call.waitpid t.waitpid,
                    Call.psignal (WTERMSIG t.wstatus)] }
      else
        { state := s, flow := Flow.next, calls := [Call.read t.read, Call.waitpid t.waitpid] }
    else { state := s, flow := Flow.next, calls := [Call.read t.read] }
  else { state := s, flow := Flow.next, calls := [] }

/-- What the `for` loop of lines 249-269 leaves behind. -/
structure Scan where
  overlays : List overlay
  status : Int
  all_ready : Bool
  calls : List Call
deriving Repr

/-- Lines 250-269: the scan over the overlays from index `i` on, with the
current values of `status` and `all_ready`.  A `break` of the `switch` leaves
the `switch` only: the scan always visits every overlay. -/
def gate_scan (overlay_cursor : Bool) : List overlay → Nat → Int → Bool → Scan
  | [], _, status, all_ready =>
      { overlays := [], status := status, all_ready := all_ready, calls := [] }
  | o :: os, i, status, all_ready =>
      match o.capture_status with
      | capture_status.PENDING =>
          let r := gate_scan overlay_cursor os (i + 1) status false
          { r with overlays := capture overlay_cursor o :: r.overlays,
                   calls := Call.wl_output_add_listener i ::
                            Call.capture overlay_cursor i :: r.calls }
      | capture_status.WAITING =>
          let r := gate_scan overlay_cursor os (i + 1) status false
          { r with overlays := o :: r.overlays }
      | capture_status.READY =>
          let r := gate_scan overlay_cursor os (i + 1) status all_ready
          { r with overlays := o :: r.overlays }
      | capture_status.FAILED =>
          let r := gate_scan overlay_cursor os (i + 1) EXIT_FAILURE false
          { r with overlays := o :: r.overlays }

/-- Lines 248-288: the scan and the launch gate. -/
def gate_phase (command : String) (overlay_cursor : Bool) (s : LoopState) (t : Tick) : Step :=
  if s.child_pid = -1 then
    let r := gate_scan overlay_cursor s.globals.overlays 0 s.status true
    let s1 : LoopState :=
      { s with globals := { s.globals with overlays := r.overlays }, status := r.status }
    if r.all_ready then
      let s2 : LoopState := { s1 with child_pid := t.fork }
      if t.fork = -1 then
        fail s2 (r.calls ++ [Call.fork t.fork]) "ERROR: fork()"
      else if t.fork = 0 then
        match t.execl with
        | none =>
            { state := s2, flow := Flow.replaced,
              calls := r.calls ++ [Call.fork t.fork, Call.execl command none] }
        | some ret =>
            if ret = -1 then
              fail s2 (r.calls ++ [Call.fork t.fork, Call.execl command (some ret)])
                "ERROR: execl()"
            else
              { state := s2, flow := Flow.next,
                calls := r.calls ++ [Call.fork t.fork, Call.execl command (some ret)] }
      else { state := s2, flow := Flow.next, calls := r.calls ++ [Call.fork t.fork] }
    else { state := s1, flow := Flow.next, calls := r.calls }
  else { state := s, flow := Flow.next, calls := [] }

/-- Lines 181-246: everything the body does before the gate. -/
def pre_gate (s : LoopState) (t : Tick) : Step :=
  (connection_phase s t).andThen fun s1 => sigchld_phase s1 t

/-- Lines 181-288: one iteration of the loop body. -/
def body (command : String) (overlay_cursor : Bool) (s : LoopState) (t : Tick) : Step :=
  (pre_gate s t).andThen fun s1 => gate_phase command overlay_cursor s1 t

/-- How the loop stands once the given ticks are used up. -/
inductive Ending
  | exited
  | running
  | replaced
deriving DecidableEq, Repr

/-- State, ending and calls of a run of the loop. -/
structure LoopResult where
  state : LoopState
  ending : Ending
  calls : List Call
deriving Repr

/-- Lines 180-289: `while (status == 0) { body }` over the ticks the
environment provides; `running` when the loop is still waiting in `poll` after
the last of them. -/
def loop (command : String) (overlay_cursor : Bool) : LoopState → List Tick → LoopResult
  | s, [] =>
      { state := s, ending := if s.status = 0 then Ending.running else Ending.exited,
        calls := [] }
  | s, t :: ts =>
      if s.status = 0 then
        match (body command overlay_cursor s t).flow with
        | Flow.next =>
            let r := loop command overlay_cursor (body command overlay_cursor s t).state ts
            { r with calls := (body command overlay_cursor s t).calls ++ r.calls }
        | Flow.brk =>
            { state := (body command overlay_cursor s t).state, ending := Ending.exited,
              calls := (body command overlay_cursor s t).calls }
        | Flow.replaced =>
            { state := (body command overlay_cursor s t).state, ending := Ending.replaced,
              calls := (body command overlay_cursor s t).calls }
      else { state := s, ending := Ending.exited, calls := [] }

/-- Lines 291-305: the teardown. -/
def teardown (g : globals) : List Call :=
  [Call.close] ++ (List.range g.overlays.length).map Call.overlay_destroy ++
  [Call.array_free, Call.wl_registry_destroy,
   Call.zwlr_screencopy_manager_v1_destroy g.wlr_screencopy_manager,
   Call.zwlr_layer_shell_v1_destroy g.wlr_layer_shell,
   Call.wp_viewporter_destroy g.wp_viewporter,
   Call.wl_compositor_destroy g.wl_compositor,
   Call.wl_shm_destroy g.wl_shm,
   Call.wl_display_disconnect]

/-! ## `main` -/

/-- One return of `getopt(argc, argv, "c:hp")` other than the final `-1`: the
option character (`'?'` for an unknown flag or a missing argument) and
`optarg`. -/
structure GetoptResult where
  option : Char
  optarg : Option String
deriving DecidableEq, Repr

/-- What the option loop of lines 115-130 ends with. -/
inductive Parsed
  | returned (code : Int) (calls : List Call)
  | parsed (command : Option String) (overlay_cursor : Bool)
deriving DecidableEq, Repr

/-- Lines 115-130: the `while ((option = getopt(...)) != -1)` loop, over the
successive returns of `getopt`. -/
def getopt_loop : List GetoptResult → Option String → Bool → Parsed
  | [], command, overlay_cursor => Parsed.parsed command overlay_cursor
  | r :: rest, command, overlay_cursor =>
      if r.option = 'c' then getopt_loop rest r.optarg overlay_cursor
      else if r.option = 'h' then Parsed.returned EXIT_SUCCESS [Call.usage Stream.stdout]
      else if r.option = 'p' then getopt_loop rest command true
      else Parsed.returned EXIT_FAILURE [Call.usage Stream.stderr]

/-- What the set-up calls of lines 143-166 return. -/
structure Setup where
  sigemptyset : Int
  sigaddset : Int
  sigprocmask : Int
  signalfd : Int
  wl_display_connect : Bool
deriving DecidableEq, Repr

/-- The value `main` returns, if it returns, and every call it made. -/
structure Outcome where
  ret : Option Int
  calls : List Call
deriving DecidableEq, Repr

/-- The state in which the loop is entered (lines 105, 178, 179). -/
def loop_init : LoopState :=
  { globals := globals_zero, child_pid := -1, status := 0 }

/-- The calls of lines 143-176 when every one of them succeeds. -/
def setup_calls (su : Setup) : List Call :=
  [Call.sigemptyset su.sigemptyset, Call.sigaddset su.sigaddset,
   Call.sigprocmask su.sigprocmask, Call.signalfd su.signalfd,
   Call.wl_display_connect su.wl_display_connect,
   Call.wl_display_get_registry, Call.wl_registry_add_listener]

/-- Lines 138-307, once a command is known. -/
def main_run (command : String) (overlay_cursor : Bool) (su : Setup) (ticks : List Tick) :
    Outcome :=
  if su.sigemptyset = -1 then
    { ret := some EXIT_FAILURE,
      calls := [Call.sigemptyset su.sigemptyset, Call.perror "ERROR: sigemptyset()"] }
  else if su.sigaddset = -1 then
    { ret := some EXIT_FAILURE,
      calls := [Call.sigemptyset su.sigemptyset, Call.sigaddset su.sigaddset,
                Call.perror "ERROR: sigaddset()"] }
  else if su.sigprocmask = -1 then
    { ret := some EXIT_FAILURE,
      calls := [Call.sigemptyset su.sigemptyset, Call.sigaddset su.sigaddset,
                Call.sigprocmask su.sigprocmask, Call.perror "ERROR: sigprocmask()"] }
  else if su.signalfd = -1 then
    { ret := some EXIT_FAILURE,
      calls := [Call.sigemptyset su.sigemptyset, Call.sigaddset su.sigaddset,
                Call.sigprocmask su.sigprocmask, Call.signalfd su.signalfd,
                Call.perror "ERROR: signalfd()"] }
  else if su.wl_display_connect = false then
    { ret := some EXIT_FAILURE,
      calls := [Call.sigemptyset su.sigemptyset, Call.sigaddset su.sigaddset,
                Call.sigprocmask su.sigprocmask, Call.signalfd su.signalfd,
                Call.wl_display_connect su.wl_display_connect,
                Call.fprintf_stderr "ERROR: Failed to connect to a Wayland display"] }
  else
    let r := loop command overlay_cursor loop_init ticks
    match r.ending with
    | Ending.exited =>
        { ret := some r.state.status,
          calls := setup_calls su ++ r.calls ++ teardown r.state.globals }
    | Ending.running => { ret := none, calls := setup_calls su ++ r.calls }
    | Ending.replaced => { ret := none, calls := setup_calls su ++ r.calls }

/-- Lines 104-307: `main`, given the returns of `getopt`, of the set-up calls
and of each iteration of the loop. -/
def main (opts : List GetoptResult) (su : Setup) (ticks : List Tick) : Outcome :=
  match getopt_loop opts none false with
  | Parsed.returned code calls => { ret := some code, calls := calls }
  | Parsed.parsed none _ =>
      { ret := some EXIT_FAILURE,
        calls := [Call.fprintf_stderr "ERROR: a command must be provided via -c flag",
                  Call.usage Stream.stderr] }
  | Parsed.parsed (some command) overlay_cursor => main_run command overlay_cursor su ticks

/-- The exit status the parent process sees: the low eight bits of the value
`main` returns. -/
def exit_status (ret : Int) : Int := ret % 256

/-! ## Observations on the calls -/

/-- The launch of the command: the `fork` of line 272. -/
def is_fork : Call → Bool
  | Call.fork _ => true
  | _ => false

/-- A capture request: the `capture(overlay_cursor, overlay)` of line 256. -/
def is_capture : Call → Bool
  | Call.capture _ _ => true
  | _ => false

/-- A capture request for the overlay at index `j`. -/
def is_capture_of (j : Nat) : Call → Bool
  | Call.capture _ i => i == j
  | _ => false

/-- A loop-owned call whose return value makes the loop give up:
`wl_display_prepare_read`, `wl_display_flush`, `poll`, `wl_display_read_events`,
`wl_display_dispatch_pending`, `waitpid` or `fork` returning `-1`, or the `read`
of the signal descriptor returning anything but the size of one
notification. -/
def failed : Call → Bool
  | Call.wl_display_prepare_read ret => ret == -1
  | Call.wl_display_flush ret => ret == -1
  | Call.poll ret => ret == -1
  | Call.wl_display_read_events ret => ret == -1
  | Call.wl_display_dispatch_pending ret => ret == -1
  | Call.read ret => ret != SIGINFO_SIZE
  | Call.waitpid ret => ret == -1
  | Call.fork ret => ret == -1
  | _ => false

/-- The calls from the first `fork` on: the launch and everything after it. -/
def from_launch (calls : List Call) : List Call :=
  calls.dropWhile fun x => !is_fork x

/-- What the gate scan does to one overlay. -/
def advance (overlay_cursor : Bool) (o : overlay) : overlay :=
  if o.capture_status = capture_status.PENDING then capture overlay_cursor o else o

/-! ## Notions used in the statements -/

/-- The state the gate sees when the tick reaches it: the events of the tick
have been dispatched. -/
def dispatched (s : LoopState) (t : Tick) : LoopState :=
  { s with globals := dispatch_events s.globals t.events }

/-- The overlay at index `j` exists and has left PENDING. -/
def settled (os : List overlay) (j : Nat) : Prop :=
  ∃ o, os[j]? = some o ∧ o.capture_status ≠ capture_status.PENDING

/-- Every overlay the gate sees is READY. -/
def gate_ready (s : LoopState) (t : Tick) : Prop :=
  ∀ o ∈ (dispatched s t).globals.overlays, o.capture_status = capture_status.READY

/-- The facts about the state and the calls made so far that hold at every
point of every run. -/
structure RunInv (c : Bool) (s : LoopState) (calls : List Call) : Prop where
  not_launched : (∀ x ∈ calls, is_fork x = false) → s.child_pid = -1
  launched : s.child_pid = -1 → s.status = 0 → ∀ x ∈ calls, is_fork x = false
  fork_once : calls.countP is_fork ≤ 1
  capture_settled : ∀ c' j, Call.capture c' j ∈ calls → c' = c ∧ settled s.globals.overlays j
  capture_once : ∀ j, calls.countP (is_capture_of j) ≤ 1
  after_fork : ∀ x ∈ from_launch calls, is_capture x = false

/-- The options yield a command and every set-up call succeeds, so `main`
enters the loop with this command and cursor flag. -/
def enters_loop (opts : List GetoptResult) (su : Setup) (command : String)
    (overlay_cursor : Bool) : Prop :=
  getopt_loop opts none false = Parsed.parsed (some command) overlay_cursor ∧
  su.sigemptyset ≠ -1 ∧ su.sigaddset ≠ -1 ∧ su.sigprocmask ≠ -1 ∧ su.signalfd ≠ -1 ∧
  su.wl_display_connect = true

instance (opts : List GetoptResult) (su : Setup) (command : String) (overlay_cursor : Bool) :
    Decidable (enters_loop opts su command overlay_cursor) := by
  unfold enters_loop
  infer_instance

/-- The capture states of the collection, in order. -/
def statuses (g : globals) : List capture_status :=
  g.overlays.map fun o => o.capture_status

/-- The first `n` overlays are READY and all the others PENDING. -/
def ready_then_pending (n : Nat) (g : globals) : Prop :=
  statuses g = List.replicate n capture_status.READY ++
    List.replicate (g.overlays.length - n) capture_status.PENDING

/-- Whether `getopt` reported the option `-p`. -/
def pointer_requested (opts : List GetoptResult) : Bool :=
  opts.any fun r => r.option == 'p'

/-- A tick in which every call succeeds, the connection is readable, no event
is dispatched and no signal is pending; a `fork` in it returns pid 100. -/
def quiet_tick : Tick :=
  { prepare_read := 0, flush := 0, poll := 1, wl_display_pollin := true,
    sigchld_pollin := false, read_events := 0, events := [], dispatch_pending := 0,
    read := 128, ssi_signo := 17, waitpid := 100, wstatus := 0, fork := 100, execl := none }

/-- The returns of `getopt` for `still -c true`. -/
def opts_command : List GetoptResult := [{ option := 'c', optarg := some "true" }]

/-- Set-up calls that all succeed. -/
def setup_good : Setup :=
  { sigemptyset := 0, sigaddset := 0, sigprocmask := 0, signalfd := 3,
    wl_display_connect := true }

/-- A tick like `quiet_tick` that dispatches the given events. -/
def event_tick (events : List Event) : Tick :=
  { quiet_tick with events := events }

/-- The wait status of a child that exited normally with code `code`. -/
def exited_with (code : Nat) : Nat := code * 256

/-- The wait status of a child killed by signal `sig`. -/
def killed_by (sig : Nat) : Nat := sig

/-- A tick like `quiet_tick` in which the child-termination notification is
read and `waitpid` reports the given wait status. -/
def reap_tick (wstatus : Nat) : Tick :=
  { quiet_tick with sigchld_pollin := true, wstatus := wstatus }

/-! # Theorems -/

/-! ## The gate scan -/

theorem gate_scan_all_ready (c : Bool) (os : List overlay) (i : Nat) (st : Int) (ar : Bool) :
    (gate_scan c os i st ar).all_ready = true ↔
      ar = true ∧ ∀ o ∈ os, o.capture_status = capture_status.READY := by
  induction os generalizing i st ar with
  | nil => simp [gate_scan]
  | cons o os ih =>
    cases hst : o.capture_status <;> simp [gate_scan, hst, ih]

theorem gate_scan_status (c : Bool) (os : List overlay) (i : Nat) (st : Int) (ar : Bool) :
    (gate_scan c os i st ar).status =
      if ∃ o ∈ os, o.capture_status = capture_status.FAILED then EXIT_FAILURE else st := by
  induction os generalizing i st ar with
  | nil => simp [gate_scan]
  | cons o os ih =>
    cases hst : o.capture_status <;> simp [gate_scan, hst, ih]

theorem gate_scan_overlays (c : Bool) (os : List overlay) (i : Nat) (st : Int) (ar : Bool) :
    (gate_scan c os i st ar).overlays = os.map (advance c) := by
  induction os generalizing i st ar with
  | nil => simp [gate_scan]
  | cons o os ih =>
    cases hst : o.capture_status <;> simp [gate_scan, hst, ih, advance]

theorem gate_scan_calls_kind (c : Bool) (os : List overlay) (i : Nat) (st : Int) (ar : Bool) :
    ∀ x ∈ (gate_scan c os i st ar).calls,
      (∃ j, x = Call.wl_output_add_listener j) ∨ (∃ j, x = Call.capture c j) := by
  induction os generalizing i st ar with
  | nil => simp [gate_scan]
  | cons o os ih =>
    cases hst : o.capture_status <;> simp only [gate_scan, hst]
    · intro x hx
      simp only [List.mem_cons] at hx
      rcases hx with rfl | rfl | hx
      · exact Or.inl ⟨i, rfl⟩
      · exact Or.inr ⟨i, rfl⟩
      · exact ih _ _ _ x hx
    · exact ih _ _ _
    · exact ih _ _ _
    · exact ih _ _ _

theorem gate_scan_capture_mem (c : Bool) (os : List overlay) (i : Nat) (st : Int) (ar : Bool)
    (c' : Bool) (j : Nat) :
    Call.capture c' j ∈ (gate_scan c os i st ar).calls ↔
      c' = c ∧ i ≤ j ∧ ∃ o, os[j - i]? = some o ∧
        o.capture_status = capture_status.PENDING := by
  induction os generalizing i st ar with
  | nil => simp [gate_scan]
  | cons o os ih =>
    have key : ∀ (P : Prop), (i + 1 ≤ j ∧ ∃ o, os[j - (i + 1)]? = some o ∧
        o.capture_status = capture_status.PENDING) ↔
        (i ≤ j ∧ j ≠ i ∧ ∃ o', (o :: os)[j - i]? = some o' ∧
          o'.capture_status = capture_status.PENDING) := by
      intro _
      constructor
      · rintro ⟨h1, o', h2, h3⟩
        refine ⟨by omega, by omega, o', ?_, h3⟩
        have : j - i = (j - (i + 1)) + 1 := by omega
        rw [this]; simpa using h2
      · rintro ⟨h1, h1', o', h2, h3⟩
        refine ⟨by omega, o', ?_, h3⟩
        have : j - i = (j - (i + 1)) + 1 := by omega
        rw [this] at h2; simpa using h2
    cases hst : o.capture_status <;> simp only [gate_scan, hst, List.mem_cons, ih, key True]
    · by_cases hji : j = i
      · subst hji; simp [hst]
      · simp [hji]
    all_goals
      by_cases hji : j = i
      · subst hji; simp [hst]
      · simp [hji]

theorem gate_scan_capture_index (c : Bool) (os : List overlay) (i : Nat) (st : Int) (ar : Bool)
    (j : Nat) : ∀ x ∈ (gate_scan c os i st ar).calls, is_capture_of j x = true → i ≤ j := by
  intro x hx hj
  rcases gate_scan_calls_kind c os i st ar x hx with ⟨k, rfl⟩ | ⟨k, rfl⟩
  · simp [is_capture_of] at hj
  · simp only [is_capture_of, beq_iff_eq] at hj
    subst hj
    exact ((gate_scan_capture_mem c os i st ar c k).1 hx).2.1

theorem gate_scan_capture_count (c : Bool) (os : List overlay) (i : Nat) (st : Int) (ar : Bool)
    (j : Nat) : (gate_scan c os i st ar).calls.countP (is_capture_of j) ≤ 1 := by
  induction os generalizing i st ar with
  | nil => simp [gate_scan]
  | cons o os ih =>
    cases hst : o.capture_status <;> simp only [gate_scan, hst]
    · by_cases hji : i = j
      · have h0 : (gate_scan c os (i + 1) st false).calls.countP (is_capture_of j) = 0 := by
          rw [List.countP_eq_zero]
          intro x hx hj
          have := gate_scan_capture_index c os (i + 1) st false j x hx (by simpa using hj)
          omega
        simp only [List.countP_cons, h0]
        simp [is_capture_of, hji]
      · have := ih (i + 1) st false
        simpa [List.countP_cons, is_capture_of, hji] using this
    · exact ih _ _ _
    · exact ih _ _ _
    · exact ih _ _ _

/-! ## The pieces of the loop body -/

theorem andThen_next (x : Step) (f : LoopState → Step) (h : x.flow = Flow.next) :
    x.andThen f = { state := (f x.state).state, flow := (f x.state).flow,
                    calls := x.calls ++ (f x.state).calls } := by
  simp [Step.andThen, h]

theorem andThen_brk (x : Step) (f : LoopState → Step) (h : x.flow = Flow.brk) :
    x.andThen f = x := by
  simp [Step.andThen, h]

theorem connection_phase_flow (s : LoopState) (t : Tick) :
    (connection_phase s t).flow = Flow.next ∨ (connection_phase s t).flow = Flow.brk := by
  unfold connection_phase fail
  split_ifs <;> simp

theorem connection_phase_next (s : LoopState) (t : Tick)
    (h : (connection_phase s t).flow = Flow.next) :
    (connection_phase s t).state = { s with globals := dispatch_events s.globals t.events } := by
  revert h
  unfold connection_phase fail
  split_ifs <;> simp

theorem connection_phase_brk (s : LoopState) (t : Tick)
    (h : (connection_phase s t).flow = Flow.brk) :
    (connection_phase s t).state.status = EXIT_FAILURE := by
  revert h
  unfold connection_phase fail
  split_ifs <;> simp

theorem connection_phase_child_pid (s : LoopState) (t : Tick) :
    (connection_phase s t).state.child_pid = s.child_pid := by
  unfold connection_phase fail
  split_ifs <;> simp

theorem connection_phase_globals (s : LoopState) (t : Tick) :
    (connection_phase s t).state.globals = s.globals ∨
      (connection_phase s t).state.globals = dispatch_events s.globals t.events := by
  unfold connection_phase fail
  split_ifs <;> simp

theorem connection_phase_calls (s : LoopState) (t : Tick) :
    ∀ x ∈ (connection_phase s t).calls, is_fork x = false ∧ is_capture x = false := by
  unfold connection_phase fail
  split_ifs <;> simp [is_fork, is_capture]

theorem sigchld_phase_flow (s : LoopState) (t : Tick) :
    (sigchld_phase s t).flow = Flow.next ∨ (sigchld_phase s t).flow = Flow.brk := by
  unfold sigchld_phase fail
  split_ifs <;> simp

theorem sigchld_phase_next (s : LoopState) (t : Tick)
    (h : (sigchld_phase s t).flow = Flow.next) : (sigchld_phase s t).state = s := by
  revert h
  unfold sigchld_phase fail
  split_ifs <;> simp

theorem sigchld_phase_child_pid (s : LoopState) (t : Tick) :
    (sigchld_phase s t).state.child_pid = s.child_pid := by
  unfold sigchld_phase fail
  split_ifs <;> simp

theorem sigchld_phase_globals (s : LoopState) (t : Tick) :
    (sigchld_phase s t).state.globals = s.globals := by
  unfold sigchld_phase fail
  split_ifs <;> simp

theorem sigchld_phase_calls (s : LoopState) (t : Tick) :
    ∀ x ∈ (sigchld_phase s t).calls, is_fork x = false ∧ is_capture x = false := by
  unfold sigchld_phase fail
  split_ifs <;> simp [is_fork, is_capture]

theorem pre_gate_flow (s : LoopState) (t : Tick) :
    (pre_gate s t).flow = Flow.next ∨ (pre_gate s t).flow = Flow.brk := by
  unfold pre_gate
  rcases connection_phase_flow s t with h | h
  · rw [andThen_next _ _ h]; exact sigchld_phase_flow _ t
  · rw [andThen_brk _ _ h]; exact Or.inr h

theorem pre_gate_child_pid (s : LoopState) (t : Tick) :
    (pre_gate s t).state.child_pid = s.child_pid := by
  unfold pre_gate
  rcases connection_phase_flow s t with h | h
  · rw [andThen_next _ _ h]
    simp [sigchld_phase_child_pid, connection_phase_child_pid]
  · rw [andThen_brk _ _ h]; exact connection_phase_child_pid s t

theorem pre_gate_next (s : LoopState) (t : Tick) (h : (pre_gate s t).flow = Flow.next) :
    (pre_gate s t).state = { s with globals := dispatch_events s.globals t.events } := by
  unfold pre_gate at h ⊢
  rcases connection_phase_flow s t with h1 | h1
  · rw [andThen_next _ _ h1] at h ⊢
    simp only at h ⊢
    rw [sigchld_phase_next _ t h, connection_phase_next s t h1]
  · rw [andThen_brk _ _ h1] at h
    rw [h1] at h; cases h

theorem pre_gate_globals (s : LoopState) (t : Tick) :
    (pre_gate s t).state.globals = s.globals ∨
      (pre_gate s t).state.globals = dispatch_events s.globals t.events := by
  unfold pre_gate
  rcases connection_phase_flow s t with h | h
  · rw [andThen_next _ _ h]
    simp only [sigchld_phase_globals]
    exact connection_phase_globals s t
  · rw [andThen_brk _ _ h]; exact connection_phase_globals s t

theorem pre_gate_calls (s : LoopState) (t : Tick) :
    ∀ x ∈ (pre_gate s t).calls, is_fork x = false ∧ is_capture x = false := by
  unfold pre_gate
  rcases connection_phase_flow s t with h | h
  · rw [andThen_next _ _ h]
    intro x hx
    simp only [List.mem_append] at hx
    rcases hx with hx | hx
    · exact connection_phase_calls s t x hx
    · exact sigchld_phase_calls _ t x hx
  · rw [andThen_brk _ _ h]; exact connection_phase_calls s t

theorem gate_scan_of_ready (c : Bool) (os : List overlay) (i : Nat) (st : Int)
    (h : ∀ o ∈ os, o.capture_status = capture_status.READY) :
    gate_scan c os i st true = { overlays := os, status := st, all_ready := true, calls := [] } := by
  induction os generalizing i with
  | nil => simp [gate_scan]
  | cons o os ih =>
    have ho : o.capture_status = capture_status.READY := h o (by simp)
    have hos : ∀ o ∈ os, o.capture_status = capture_status.READY :=
      fun o' ho' => h o' (by simp [ho'])
    simp [gate_scan, ho, ih (i + 1) hos]

/-- The three ways through the gate: skipped, scanned without launch, scanned
and launched. -/
theorem gate_phase_cases (command : String) (c : Bool) (s : LoopState) (t : Tick) :
    (s.child_pid ≠ -1 ∧
      gate_phase command c s t = { state := s, flow := Flow.next, calls := [] }) ∨
    (s.child_pid = -1 ∧ (¬ ∀ o ∈ s.globals.overlays, o.capture_status = capture_status.READY) ∧
      gate_phase command c s t =
        { state := { s with
            globals := { s.globals with overlays := s.globals.overlays.map (advance c) },
            status := (gate_scan c s.globals.overlays 0 s.status true).status },
          flow := Flow.next,
          calls := (gate_scan c s.globals.overlays 0 s.status true).calls }) ∨
    (s.child_pid = -1 ∧ (∀ o ∈ s.globals.overlays, o.capture_status = capture_status.READY) ∧
      ∃ st flow rest,
        gate_phase command c s t =
          { state := { s with child_pid := t.fork, status := st }, flow := flow,
            calls := Call.fork t.fork :: rest } ∧
        (∀ x ∈ rest, is_fork x = false ∧ is_capture x = false ∧ failed x = false) ∧
        (t.fork = -1 → st = EXIT_FAILURE ∧ flow = Flow.brk ∧ ∃ msg, rest = [Call.perror msg]) ∧
        (st = s.status ∨ st = EXIT_FAILURE ∧ flow = Flow.brk)) := by
  by_cases hpid : s.child_pid = -1
  · by_cases hr : ∀ o ∈ s.globals.overlays, o.capture_status = capture_status.READY
    · right; right
      refine ⟨hpid, hr, ?_⟩
      unfold gate_phase fail
      simp only [hpid, if_true, gate_scan_of_ready c _ 0 s.status hr]
      by_cases hf : t.fork = -1
      · simp only [hf, if_true]
        exact ⟨_, _, _, rfl, by simp [is_fork, is_capture, failed], by simp, by simp⟩
      · by_cases hf0 : t.fork = 0
        · cases he : t.execl with
          | none =>
            simp only [hf, hf0, if_false, if_true]
            exact ⟨_, _, _, rfl, by simp [is_fork, is_capture, failed], by simp, by simp⟩
          | some ret =>
            by_cases hret : ret = -1
            · simp only [hf, hf0, hret, if_false, if_true]
              exact ⟨_, _, _, rfl, by simp [is_fork, is_capture, failed], by simp, by simp⟩
            · simp only [hf, hf0, hret, if_false, if_true]
              exact ⟨_, _, _, rfl, by simp [is_fork, is_capture, failed], by simp, by simp⟩
        · simp only [hf, hf0, if_false]
          exact ⟨_, _, _, rfl, by simp, by simp [hf], by simp⟩
    · right; left
      refine ⟨hpid, hr, ?_⟩
      have har : (gate_scan c s.globals.overlays 0 s.status true).all_ready = false := by
        rw [Bool.eq_false_iff]
        intro h
        exact hr ((gate_scan_all_ready c _ 0 s.status true).1 h).2
      unfold gate_phase
      simp [hpid, har, gate_scan_overlays]
  · left
    refine ⟨hpid, ?_⟩
    unfold gate_phase
    simp [hpid]

theorem body_cases (command : String) (c : Bool) (s : LoopState) (t : Tick) :
    ((pre_gate s t).flow = Flow.brk ∧ body command c s t = pre_gate s t) ∨
    ((pre_gate s t).flow = Flow.next ∧ (pre_gate s t).state = dispatched s t ∧
      body command c s t =
        { state := (gate_phase command c (dispatched s t) t).state,
          flow := (gate_phase command c (dispatched s t) t).flow,
          calls := (pre_gate s t).calls ++ (gate_phase command c (dispatched s t) t).calls }) := by
  rcases pre_gate_flow s t with h | h
  · right
    have hs := pre_gate_next s t h
    refine ⟨h, hs, ?_⟩
    unfold body
    rw [andThen_next _ _ h, hs]
    rfl
  · left
    exact ⟨h, by unfold body; rw [andThen_brk _ _ h]⟩

theorem update_overlay_getElem? (f : overlay → overlay) (os : List overlay) (i j : Nat) :
    (update_overlay f os i)[j]? = if j = i then (os[j]?).map f else os[j]? := by
  induction os generalizing i j with
  | nil => simp [update_overlay]
  | cons o os ih =>
    cases i with
    | zero =>
      cases j with
      | zero => simp [update_overlay]
      | succ j => simp [update_overlay]
    | succ i =>
      cases j with
      | zero => simp [update_overlay]
      | succ j => simp [update_overlay, ih]

theorem update_overlay_settled (f : overlay → overlay) (os : List overlay) (i j : Nat)
    (hf : ∀ o, o.capture_status ≠ capture_status.PENDING →
      (f o).capture_status ≠ capture_status.PENDING)
    (h : settled os j) : settled (update_overlay f os i) j := by
  obtain ⟨o, ho, hst⟩ := h
  unfold settled
  rw [update_overlay_getElem?]
  by_cases hji : j = i
  · simp only [hji, if_true]
    rw [← hji, ho]
    exact ⟨f o, rfl, hf o hst⟩
  · simp only [hji, if_false]
    exact ⟨o, ho, hst⟩

theorem handle_event_settled (g : globals) (e : Event) (j : Nat) (h : settled g.overlays j) :
    settled (handle_event g e).overlays j := by
  cases e with
  | global name interface version =>
    simp only [handle_event, registry_handle_global]
    split_ifs <;> try exact h
    obtain ⟨o, ho, hst⟩ := h
    refine ⟨o, ?_, hst⟩
    have hj : j < g.overlays.length := by
      by_contra hlt
      rw [List.getElem?_eq_none (by omega)] at ho
      cases ho
    simp only
    rw [List.getElem?_append_left hj]
    exact ho
  | output_geometry i transform =>
    apply update_overlay_settled _ _ _ _ _ h
    intro o ho
    unfold output_handle_geometry
    split_ifs <;> simpa using ho
  | frame_ready i =>
    apply update_overlay_settled _ _ _ _ _ h
    intro o ho
    unfold frame_handle_ready
    split_ifs <;> simp [ho]
  | frame_failed i =>
    apply update_overlay_settled _ _ _ _ _ h
    intro o ho
    unfold frame_handle_failed
    split_ifs <;> simp [ho]
  | _ => exact h

theorem dispatch_events_settled (g : globals) (events : List Event) (j : Nat)
    (h : settled g.overlays j) : settled (dispatch_events g events).overlays j := by
  induction events generalizing g with
  | nil => exact h
  | cons e es ih => exact ih (handle_event g e) (handle_event_settled g e j h)

theorem advance_settled (c : Bool) (os : List overlay) (j : Nat) (h : j < os.length) :
    settled (os.map (advance c)) j := by
  refine ⟨advance c os[j], by simp [h], ?_⟩
  unfold advance capture
  split_ifs with hp <;> simp [hp]

/-! ## The loop -/

theorem loop_of_status (command : String) (c : Bool) (s : LoopState) (ticks : List Tick)
    (h : s.status ≠ 0) :
    loop command c s ticks = { state := s, ending := Ending.exited, calls := [] } := by
  cases ticks with
  | nil => simp [loop, h]
  | cons t ts => simp [loop, h]

theorem loop_running_status (command : String) (c : Bool) (s : LoopState) (pre : List Tick)
    (h : (loop command c s pre).ending = Ending.running) :
    (loop command c s pre).state.status = 0 := by
  induction pre generalizing s with
  | nil =>
    by_cases hs : s.status = 0
    · simpa [loop] using hs
    · simp [loop, hs] at h
  | cons t ts ih =>
    by_cases hs : s.status = 0
    · simp only [loop, hs, if_true] at h ⊢
      cases hf : (body command c s t).flow with
      | next => simp only [hf] at h ⊢; exact ih _ h
      | brk => simp [hf] at h
      | replaced => simp [hf] at h
    · simp [loop, hs] at h

theorem loop_append (command : String) (c : Bool) (s : LoopState) (pre rest : List Tick)
    (h : (loop command c s pre).ending = Ending.running) :
    loop command c s (pre ++ rest) =
      { state := (loop command c (loop command c s pre).state rest).state,
        ending := (loop command c (loop command c s pre).state rest).ending,
        calls := (loop command c s pre).calls ++
          (loop command c (loop command c s pre).state rest).calls } := by
  induction pre generalizing s with
  | nil => simp [loop]
  | cons t ts ih =>
    by_cases hs : s.status = 0
    · simp only [loop, hs, if_true, List.cons_append] at h ⊢
      cases hf : (body command c s t).flow with
      | next =>
        simp only [hf] at h ⊢
        have ih1 := ih _ h
        simp only [List.append_eq] at ih1 ⊢
        rw [ih1]
        simp
      | brk => simp [hf] at h
      | replaced => simp [hf] at h
    · simp [loop, hs] at h

/-- When the body does not fall through, or leaves a non-zero status, the loop
ends with this tick. -/
theorem loop_stops (command : String) (c : Bool) (s : LoopState) (t : Tick) (post : List Tick)
    (hs : s.status = 0)
    (h : (body command c s t).flow ≠ Flow.next ∨ (body command c s t).state.status ≠ 0) :
    (loop command c s (t :: post)).state = (body command c s t).state ∧
    (loop command c s (t :: post)).calls = (body command c s t).calls ∧
    (loop command c s (t :: post)).ending =
      (if (body command c s t).flow = Flow.replaced then Ending.replaced else Ending.exited) := by
  simp only [loop, hs, if_true]
  cases hf : (body command c s t).flow with
  | next =>
    rcases h with h | h
    · exact absurd hf h
    · simp [loop_of_status command c _ post h]
  | brk => simp
  | replaced => simp

/-- An invariant of state and calls made so far that every iteration
preserves holds for every run. -/
theorem loop_inv (command : String) (c : Bool) (Inv : LoopState → List Call → Prop)
    (hstep : ∀ s t calls, s.status = 0 → Inv s calls →
      Inv (body command c s t).state (calls ++ (body command c s t).calls))
    (s : LoopState) (calls : List Call) (h0 : Inv s calls) (ticks : List Tick) :
    Inv (loop command c s ticks).state (calls ++ (loop command c s ticks).calls) := by
  induction ticks generalizing s calls with
  | nil => simpa [loop] using h0
  | cons t ts ih =>
    by_cases hs : s.status = 0
    · simp only [loop, hs, if_true]
      have hb := hstep s t calls hs h0
      cases hf : (body command c s t).flow with
      | next =>
        simp only
        rw [← List.append_assoc]
        exact ih _ _ hb
      | brk => exact hb
      | replaced => exact hb
    · rw [loop_of_status command c s _ hs]
      simpa using h0

/-! ## One iteration, case by case -/

/-- The four ways through an iteration: cut short before the gate, gate
skipped, scan without launch, launch. -/
theorem body_shape (command : String) (c : Bool) (s : LoopState) (t : Tick) :
    ((pre_gate s t).flow = Flow.brk ∧ body command c s t = pre_gate s t) ∨
    ((pre_gate s t).flow = Flow.next ∧ s.child_pid ≠ -1 ∧
      body command c s t =
        { state := dispatched s t, flow := Flow.next, calls := (pre_gate s t).calls }) ∨
    ((pre_gate s t).flow = Flow.next ∧ s.child_pid = -1 ∧ ¬ gate_ready s t ∧
      body command c s t =
        { state := { dispatched s t with
            globals := { (dispatched s t).globals with
              overlays := (dispatched s t).globals.overlays.map (advance c) },
            status := (gate_scan c (dispatched s t).globals.overlays 0 s.status true).status },
          flow := Flow.next,
          calls := (pre_gate s t).calls ++
            (gate_scan c (dispatched s t).globals.overlays 0 s.status true).calls }) ∨
    ((pre_gate s t).flow = Flow.next ∧ s.child_pid = -1 ∧ gate_ready s t ∧
      ∃ st flow rest,
        body command c s t =
          { state := { dispatched s t with child_pid := t.fork, status := st }, flow := flow,
            calls := (pre_gate s t).calls ++ Call.fork t.fork :: rest } ∧
        (∀ x ∈ rest, is_fork x = false ∧ is_capture x = false ∧ failed x = false) ∧
        (t.fork = -1 → st = EXIT_FAILURE ∧ flow = Flow.brk ∧ ∃ msg, rest = [Call.perror msg]) ∧
        (st = s.status ∨ st = EXIT_FAILURE ∧ flow = Flow.brk)) := by
  rcases body_cases command c s t with ⟨h, hb⟩ | ⟨h, _, hb⟩
  · exact Or.inl ⟨h, hb⟩
  · right
    have hpid : (dispatched s t).child_pid = s.child_pid := rfl
    have hst : (dispatched s t).status = s.status := rfl
    rcases gate_phase_cases command c (dispatched s t) t with
      ⟨h1, h2⟩ | ⟨h1, h2, h3⟩ | ⟨h1, h2, st, flow, rest, h3, h4, h5, h6⟩
    · left
      refine ⟨h, by rwa [hpid] at h1, ?_⟩
      rw [hb, h2]; simp
    · right; left
      refine ⟨h, by rwa [hpid] at h1, h2, ?_⟩
      rw [hb, h3]
      rfl
    · right; right
      refine ⟨h, by rwa [hpid] at h1, h2, st, flow, rest, ?_, h4, h5, h6⟩
      rw [hb, h3]

theorem is_capture_of_imp (j : Nat) (x : Call) (h : is_capture_of j x = true) :
    is_capture x = true := by
  cases x <;> simp_all [is_capture_of, is_capture]

theorem from_launch_of_none (calls : List Call) (h : ∀ x ∈ calls, is_fork x = false) :
    from_launch calls = [] := by
  induction calls with
  | nil => rfl
  | cons a l ih =>
    have ha : is_fork a = false := h a (by simp)
    simp only [from_launch, List.dropWhile_cons, ha, Bool.not_false, if_true]
    exact ih fun x hx => h x (by simp [hx])

theorem from_launch_append_of_none (a b : List Call) (h : ∀ x ∈ a, is_fork x = false) :
    from_launch (a ++ b) = from_launch b := by
  induction a with
  | nil => rfl
  | cons x l ih =>
    have hx : is_fork x = false := h x (by simp)
    simp only [from_launch, List.cons_append, List.dropWhile_cons, hx, Bool.not_false, if_true]
    exact ih fun y hy => h y (by simp [hy])

theorem from_launch_subset (calls : List Call) : ∀ x ∈ from_launch calls, x ∈ calls :=
  fun _ hx => (List.dropWhile_sublist _).subset hx

theorem mem_from_launch_append (a b : List Call) (x : Call) (h : x ∈ from_launch (a ++ b)) :
    x ∈ from_launch a ∨ x ∈ b := by
  induction a with
  | nil => exact Or.inr (from_launch_subset b x h)
  | cons y l ih =>
    by_cases hy : is_fork y = true
    · simp only [from_launch, List.cons_append, List.dropWhile_cons, hy, Bool.not_true] at h ⊢
      simp only [Bool.false_eq_true, if_false, List.mem_cons, List.mem_append] at h ⊢
      tauto
    · have hy1 : is_fork y = false := by simpa using hy
      simp only [from_launch, List.cons_append, List.dropWhile_cons, hy1, Bool.not_false,
        if_true] at h ⊢
      exact ih h

theorem from_launch_fork_cons (r : Int) (rest : List Call) :
    from_launch (Call.fork r :: rest) = Call.fork r :: rest := by
  simp [from_launch, is_fork]

theorem pre_gate_no_fork (s : LoopState) (t : Tick) :
    ∀ x ∈ (pre_gate s t).calls, is_fork x = false :=
  fun x hx => (pre_gate_calls s t x hx).1

theorem pre_gate_no_capture (s : LoopState) (t : Tick) :
    ∀ x ∈ (pre_gate s t).calls, is_capture x = false :=
  fun x hx => (pre_gate_calls s t x hx).2

theorem gate_scan_no_fork (c : Bool) (os : List overlay) (i : Nat) (st : Int) (ar : Bool) :
    ∀ x ∈ (gate_scan c os i st ar).calls, is_fork x = false := by
  intro x hx
  rcases gate_scan_calls_kind c os i st ar x hx with ⟨k, rfl⟩ | ⟨k, rfl⟩ <;> rfl

theorem countP_zero_of_forall (p : Call → Bool) (l : List Call) (h : ∀ x ∈ l, p x = false) :
    l.countP p = 0 := by
  rw [List.countP_eq_zero]
  intro x hx
  simp [h x hx]

theorem capture_of_zero (j : Nat) (l : List Call) (h : ∀ x ∈ l, is_capture x = false) :
    l.countP (is_capture_of j) = 0 := by
  apply countP_zero_of_forall
  intro x hx
  by_contra hc
  have := is_capture_of_imp j x (by simpa using hc)
  rw [h x hx] at this
  cases this

theorem body_fork_count (command : String) (c : Bool) (s : LoopState) (t : Tick) :
    (body command c s t).calls.countP is_fork ≤ 1 := by
  rcases body_shape command c s t with ⟨_, hb⟩ | ⟨_, _, hb⟩ | ⟨_, _, _, hb⟩ |
    ⟨_, _, _, st, flow, rest, hb, hrest, _, _⟩
  · rw [hb, countP_zero_of_forall _ _ (pre_gate_no_fork s t)]; omega
  · rw [hb]; simp only
    rw [countP_zero_of_forall _ _ (pre_gate_no_fork s t)]; omega
  · rw [hb]; simp only
    rw [List.countP_append, countP_zero_of_forall _ _ (pre_gate_no_fork s t),
      countP_zero_of_forall _ _ (gate_scan_no_fork _ _ _ _ _)]
    omega
  · rw [hb]; simp only
    rw [List.countP_append, countP_zero_of_forall _ _ (pre_gate_no_fork s t), List.countP_cons,
      countP_zero_of_forall _ _ (fun x hx => (hrest x hx).1)]
    simp [is_fork]

/-- The body calls `fork` exactly when it reaches the gate with no child yet and
every overlay READY. -/
theorem body_fork_iff (command : String) (c : Bool) (s : LoopState) (t : Tick) :
    (∃ x ∈ (body command c s t).calls, is_fork x = true) ↔
      s.child_pid = -1 ∧ (pre_gate s t).flow = Flow.next ∧ gate_ready s t := by
  rcases body_shape command c s t with ⟨h, hb⟩ | ⟨h, hp, hb⟩ | ⟨h, hp, hr, hb⟩ |
    ⟨h, hp, hr, st, flow, rest, hb, hrest, _, _⟩
  · constructor
    · rintro ⟨x, hx, hf⟩
      rw [hb] at hx
      rw [pre_gate_no_fork s t x hx] at hf; cases hf
    · rintro ⟨_, h2, _⟩
      rw [h] at h2; cases h2
  · constructor
    · rintro ⟨x, hx, hf⟩
      rw [hb] at hx
      rw [pre_gate_no_fork s t x hx] at hf; cases hf
    · rintro ⟨h1, _, _⟩
      exact absurd h1 hp
  · constructor
    · rintro ⟨x, hx, hf⟩
      rw [hb] at hx
      simp only [List.mem_append] at hx
      rcases hx with hx | hx
      · rw [pre_gate_no_fork s t x hx] at hf; cases hf
      · rw [gate_scan_no_fork _ _ _ _ _ x hx] at hf; cases hf
    · rintro ⟨_, _, h3⟩
      exact absurd h3 hr
  · constructor
    · intro _
      exact ⟨hp, h, hr⟩
    · intro _
      exact ⟨Call.fork t.fork, by rw [hb]; simp, rfl⟩

theorem body_fork_state (command : String) (c : Bool) (s : LoopState) (t : Tick)
    (hf : ∃ x ∈ (body command c s t).calls, is_fork x = true) :
    (body command c s t).state.child_pid = t.fork ∧
    (body command c s t).state.globals = (dispatched s t).globals ∧
    (t.fork = -1 → (body command c s t).state.status = EXIT_FAILURE ∧
      (body command c s t).flow = Flow.brk) := by
  have hiff := (body_fork_iff command c s t).1 hf
  rcases body_shape command c s t with ⟨h, _⟩ | ⟨_, hp, _⟩ | ⟨_, _, hr, _⟩ |
    ⟨_, _, _, st, flow, rest, hb, _, h5, _⟩
  · rw [h] at hiff; exact absurd hiff.2.1 (by simp)
  · exact absurd hiff.1 hp
  · exact absurd hiff.2.2 hr
  · rw [hb]
    refine ⟨rfl, rfl, fun h => ?_⟩
    exact ⟨(h5 h).1, (h5 h).2.1⟩

theorem body_child_pid (command : String) (c : Bool) (s : LoopState) (t : Tick)
    (hf : ∀ x ∈ (body command c s t).calls, is_fork x = false) :
    (body command c s t).state.child_pid = s.child_pid := by
  rcases body_shape command c s t with ⟨_, hb⟩ | ⟨_, _, hb⟩ | ⟨_, _, _, hb⟩ |
    ⟨_, _, _, st, flow, rest, hb, _, _, _⟩
  · rw [hb]; exact pre_gate_child_pid s t
  · rw [hb]; rfl
  · rw [hb]; rfl
  · have := hf (Call.fork t.fork) (by rw [hb]; simp)
    cases this

/-- The body requests a capture for overlay `j` exactly when it reaches the
gate with no child yet and finds overlay `j` PENDING; the flag is the one of
the command line. -/
theorem body_capture_iff (command : String) (c : Bool) (s : LoopState) (t : Tick)
    (c' : Bool) (j : Nat) :
    Call.capture c' j ∈ (body command c s t).calls ↔
      c' = c ∧ s.child_pid = -1 ∧ (pre_gate s t).flow = Flow.next ∧
        ∃ o, (dispatched s t).globals.overlays[j]? = some o ∧
          o.capture_status = capture_status.PENDING := by
  have hpre : Call.capture c' j ∉ (pre_gate s t).calls := by
    intro hx
    have := pre_gate_no_capture s t _ hx
    cases this
  rcases body_shape command c s t with ⟨h, hb⟩ | ⟨h, hp, hb⟩ | ⟨h, hp, hr, hb⟩ |
    ⟨h, hp, hr, st, flow, rest, hb, hrest, _, _⟩
  · rw [hb]
    constructor
    · intro hx; exact absurd hx hpre
    · rintro ⟨_, _, h3, _⟩
      rw [h] at h3; cases h3
  · rw [hb]
    constructor
    · intro hx; exact absurd hx hpre
    · rintro ⟨_, h2, _⟩
      exact absurd h2 hp
  · rw [hb]
    simp only [List.mem_append, hpre, false_or]
    rw [gate_scan_capture_mem]
    simp only [Nat.zero_le, true_and, Nat.sub_zero]
    constructor
    · rintro ⟨h1, h2⟩
      exact ⟨h1, hp, h, h2⟩
    · rintro ⟨h1, _, _, h2⟩
      exact ⟨h1, h2⟩
  · rw [hb]
    constructor
    · intro hx
      simp only [List.mem_append, hpre, false_or, List.mem_cons] at hx
      rcases hx with hx | hx
      · cases hx
      · have := (hrest _ hx).2.1
        cases this
    · rintro ⟨_, _, _, o, ho, hst⟩
      have := hr o (List.getElem?_mem ho)
      rw [hst] at this; cases this

theorem body_settled (command : String) (c : Bool) (s : LoopState) (t : Tick) (j : Nat)
    (h : settled s.globals.overlays j) : settled (body command c s t).state.globals.overlays j := by
  have hd : settled (dispatched s t).globals.overlays j := dispatch_events_settled _ _ j h
  rcases body_shape command c s t with ⟨_, hb⟩ | ⟨_, _, hb⟩ | ⟨_, _, _, hb⟩ |
    ⟨_, _, _, st, flow, rest, hb, _, _, _⟩
  · rw [hb]
    rcases pre_gate_globals s t with hg | hg
    · rw [hg]; exact h
    · rw [hg]; exact hd
  · rw [hb]; exact hd
  · rw [hb]
    obtain ⟨o, ho, _⟩ := hd
    apply advance_settled
    by_contra hlt
    rw [List.getElem?_eq_none (by omega)] at ho
    cases ho
  · rw [hb]; exact hd

theorem body_capture_settled (command : String) (c : Bool) (s : LoopState) (t : Tick)
    (c' : Bool) (j : Nat) (h : Call.capture c' j ∈ (body command c s t).calls) :
    ¬ settled s.globals.overlays j ∧ settled (body command c s t).state.globals.overlays j := by
  obtain ⟨_, hp, hflow, o, ho, hst⟩ := (body_capture_iff command c s t c' j).1 h
  constructor
  · intro hs
    obtain ⟨o', ho', hst'⟩ := dispatch_events_settled s.globals t.events j hs
    have : (dispatched s t).globals.overlays[j]? = some o' := ho'
    rw [ho] at this
    cases this
    exact hst' hst
  · rcases body_shape command c s t with ⟨hf, _⟩ | ⟨_, hp', _⟩ | ⟨_, _, _, hb⟩ |
      ⟨_, _, hr, _⟩
    · rw [hf] at hflow; cases hflow
    · exact absurd hp hp'
    · rw [hb]
      apply advance_settled
      by_contra hlt
      rw [List.getElem?_eq_none (by omega)] at ho
      cases ho
    · have := hr o (List.getElem?_mem ho)
      rw [hst] at this; cases this

theorem body_capture_count (command : String) (c : Bool) (s : LoopState) (t : Tick) (j : Nat) :
    (body command c s t).calls.countP (is_capture_of j) ≤ 1 := by
  have hpre := capture_of_zero j _ (pre_gate_no_capture s t)
  rcases body_shape command c s t with ⟨_, hb⟩ | ⟨_, _, hb⟩ | ⟨_, _, _, hb⟩ |
    ⟨_, _, _, st, flow, rest, hb, hrest, _, _⟩
  · rw [hb, hpre]; omega
  · rw [hb]; simp only
    rw [hpre]; omega
  · rw [hb]; simp only
    rw [List.countP_append, hpre, Nat.zero_add]
    exact gate_scan_capture_count _ _ _ _ _ _
  · rw [hb]; simp only
    rw [List.countP_append, hpre, List.countP_cons,
      capture_of_zero j _ (fun x hx => (hrest x hx).2.1)]
    simp [is_capture_of]

theorem body_from_launch (command : String) (c : Bool) (s : LoopState) (t : Tick) :
    ∀ x ∈ from_launch (body command c s t).calls, is_capture x = false := by
  rcases body_shape command c s t with ⟨_, hb⟩ | ⟨_, _, hb⟩ | ⟨_, _, _, hb⟩ |
    ⟨_, _, _, st, flow, rest, hb, hrest, _, _⟩
  · rw [hb, from_launch_of_none _ (pre_gate_no_fork s t)]; simp
  · rw [hb]; simp only
    rw [from_launch_of_none _ (pre_gate_no_fork s t)]; simp
  · rw [hb]; simp only
    rw [from_launch_append_of_none _ _ (pre_gate_no_fork s t),
      from_launch_of_none _ (gate_scan_no_fork _ _ _ _ _)]
    simp
  · rw [hb]; simp only
    rw [from_launch_append_of_none _ _ (pre_gate_no_fork s t), from_launch_fork_cons]
    intro x hx
    simp only [List.mem_cons] at hx
    rcases hx with rfl | hx
    · rfl
    · exact (hrest x hx).2.1

/-- In the child (`fork` returned 0) the launch goes on with
`execl("/bin/sh", "sh", "-c", command, NULL)`. -/
theorem body_execl (command : String) (c : Bool) (s : LoopState) (t : Tick)
    (hf : ∃ x ∈ (body command c s t).calls, is_fork x = true) (h0 : t.fork = 0) :
    Call.execl command t.execl ∈ (body command c s t).calls := by
  obtain ⟨hpid, hflow, hready⟩ := (body_fork_iff command c s t).1 hf
  rcases body_cases command c s t with ⟨h, _⟩ | ⟨_, _, hb⟩
  · rw [h] at hflow; cases hflow
  · rw [hb]
    simp only [List.mem_append]
    right
    have hpid' : (dispatched s t).child_pid = -1 := hpid
    unfold gate_phase fail
    simp only [hpid', if_true, gate_scan_of_ready c _ 0 _ hready, h0]
    cases he : t.execl with
    | none => simp
    | some ret =>
      by_cases hret : ret = -1
      · simp [hret]
      · simp [hret]

/-! ## What every run keeps true -/

theorem RunInv_init (c : Bool) : RunInv c loop_init [] where
  not_launched := fun _ => rfl
  launched := by simp
  fork_once := by simp
  capture_settled := by simp
  capture_once := by simp
  after_fork := by simp [from_launch]

theorem exists_capture_of_count (j : Nat) (l : List Call)
    (h : 0 < l.countP (is_capture_of j)) : ∃ c', Call.capture c' j ∈ l := by
  rw [List.countP_pos_iff] at h
  obtain ⟨x, hx, hj⟩ := h
  cases x <;> simp [is_capture_of] at hj
  subst hj
  exact ⟨_, hx⟩

theorem RunInv_step (command : String) (c : Bool) (s : LoopState) (t : Tick)
    (calls : List Call) (hs : s.status = 0) (inv : RunInv c s calls) :
    RunInv c (body command c s t).state (calls ++ (body command c s t).calls) := by
  have hforkcase : (∃ x ∈ (body command c s t).calls, is_fork x = true) ∨
      ∀ x ∈ (body command c s t).calls, is_fork x = false := by
    by_cases h : ∃ x ∈ (body command c s t).calls, is_fork x = true
    · exact Or.inl h
    · right
      intro x hx
      by_contra hf
      exact h ⟨x, hx, by simpa using hf⟩
  constructor
  · intro h
    have h1 : ∀ x ∈ calls, is_fork x = false := fun x hx => h x (by simp [hx])
    have h2 : ∀ x ∈ (body command c s t).calls, is_fork x = false :=
      fun x hx => h x (by simp [hx])
    rw [body_child_pid command c s t h2]
    exact inv.not_launched h1
  · intro hp hst x hx
    rcases hforkcase with hf | hf
    · have hstate := body_fork_state command c s t hf
      rw [hstate.1] at hp
      have := (hstate.2.2 hp).1
      rw [hst] at this
      cases this
    · rw [body_child_pid command c s t hf] at hp
      simp only [List.mem_append] at hx
      rcases hx with hx | hx
      · exact inv.launched hp hs x hx
      · exact hf x hx
  · rw [List.countP_append]
    rcases hforkcase with hf | hf
    · have hp := ((body_fork_iff command c s t).1 hf).1
      rw [countP_zero_of_forall _ _ (inv.launched hp hs)]
      have := body_fork_count command c s t
      omega
    · rw [countP_zero_of_forall _ _ hf]
      exact inv.fork_once
  · intro c' j hx
    simp only [List.mem_append] at hx
    rcases hx with hx | hx
    · exact ⟨(inv.capture_settled c' j hx).1,
        body_settled command c s t j (inv.capture_settled c' j hx).2⟩
    · exact ⟨((body_capture_iff command c s t c' j).1 hx).1,
        (body_capture_settled command c s t c' j hx).2⟩
  · intro j
    rw [List.countP_append]
    by_cases hb : 0 < (body command c s t).calls.countP (is_capture_of j)
    · obtain ⟨c', hc'⟩ := exists_capture_of_count j _ hb
      have hns := (body_capture_settled command c s t c' j hc').1
      have h0 : calls.countP (is_capture_of j) = 0 := by
        by_contra hne
        obtain ⟨c'', hc''⟩ := exists_capture_of_count j calls (by omega)
        exact hns (inv.capture_settled c'' j hc'').2
      have := body_capture_count command c s t j
      omega
    · have := inv.capture_once j
      omega
  · intro x hx
    by_cases hfc : ∀ y ∈ calls, is_fork y = false
    · rw [from_launch_append_of_none _ _ hfc] at hx
      exact body_from_launch command c s t x hx
    · rcases mem_from_launch_append _ _ x hx with hx | hx
      · exact inv.after_fork x hx
      · have hp : s.child_pid ≠ -1 := fun hp => hfc (inv.launched hp hs)
        by_contra hcap
        cases x <;> simp [is_capture] at hcap
        exact hp ((body_capture_iff command c s t _ _).1 hx).2.1

/-- The invariant holds along every run from the initial state. -/
theorem run_inv (command : String) (c : Bool) (ticks : List Tick) :
    RunInv c (loop command c loop_init ticks).state (loop command c loop_init ticks).calls := by
  have := loop_inv command c (RunInv c)
    (fun s t calls hs inv => RunInv_step command c s t calls hs inv) loop_init [] (RunInv_init c)
    ticks
  simpa using this

/-! ## `main` around the loop -/

theorem main_of_enters (opts : List GetoptResult) (su : Setup) (command : String) (c : Bool)
    (ticks : List Tick) (h : enters_loop opts su command c) :
    main opts su ticks =
      match (loop command c loop_init ticks).ending with
      | Ending.exited =>
          { ret := some (loop command c loop_init ticks).state.status,
            calls := setup_calls su ++ (loop command c loop_init ticks).calls ++
              teardown (loop command c loop_init ticks).state.globals }
      | Ending.running =>
          { ret := none, calls := setup_calls su ++ (loop command c loop_init ticks).calls }
      | Ending.replaced =>
          { ret := none, calls := setup_calls su ++ (loop command c loop_init ticks).calls } := by
  obtain ⟨h1, h2, h3, h4, h5, h6⟩ := h
  simp [main, h1, main_run, h2, h3, h4, h5, h6]

theorem setup_calls_plain (su : Setup) :
    ∀ x ∈ setup_calls su, is_fork x = false ∧ is_capture x = false := by
  simp [setup_calls, is_fork, is_capture]

theorem teardown_plain (g : globals) :
    ∀ x ∈ teardown g, is_fork x = false ∧ is_capture x = false := by
  intro x hx
  simp only [teardown, List.mem_append, List.mem_map, List.mem_cons, List.not_mem_nil,
    or_false] at hx
  rcases hx with (rfl | ⟨i, _, rfl⟩) | hx
  · exact ⟨rfl, rfl⟩
  · exact ⟨rfl, rfl⟩
  · rcases hx with rfl | rfl | rfl | rfl | rfl | rfl | rfl | rfl <;> exact ⟨rfl, rfl⟩

/-- The calls of `main` are the calls of a run of the loop between calls that
are neither a launch nor a capture request, or contain no such call at all. -/
theorem main_calls (opts : List GetoptResult) (su : Setup) (ticks : List Tick) :
    (∀ x ∈ (main opts su ticks).calls, is_fork x = false ∧ is_capture x = false) ∨
    ∃ command c after,
      getopt_loop opts none false = Parsed.parsed (some command) c ∧
      (main opts su ticks).calls =
        setup_calls su ++ (loop command c loop_init ticks).calls ++ after ∧
      ∀ x ∈ after, is_fork x = false ∧ is_capture x = false := by
  unfold main
  cases hp : getopt_loop opts none false with
  | returned code calls =>
    left
    have : ∀ (l : List GetoptResult) (cmd : Option String) (b : Bool) code calls,
        getopt_loop l cmd b = Parsed.returned code calls →
        ∀ x ∈ calls, is_fork x = false ∧ is_capture x = false := by
      intro l
      induction l with
      | nil => intro cmd b code calls h; simp [getopt_loop] at h
      | cons r rest ih =>
        intro cmd b code calls h
        simp only [getopt_loop] at h
        split_ifs at h
        · exact ih _ _ _ _ h
        · cases h; simp [is_fork, is_capture]
        · exact ih _ _ _ _ h
        · cases h; simp [is_fork, is_capture]
    exact this _ _ _ _ _ hp
  | parsed cmd c =>
    cases cmd with
    | none => left; simp [is_fork, is_capture]
    | some command =>
      simp only [main_run]
      split_ifs
      · left; simp [is_fork, is_capture]
      · left; simp [is_fork, is_capture]
      · left; simp [is_fork, is_capture]
      · left; simp [is_fork, is_capture]
      · left; simp [is_fork, is_capture]
      · right
        refine ⟨command, c, ?_⟩
        cases he : (loop command c loop_init ticks).ending with
        | exited => exact ⟨_, rfl, rfl, teardown_plain _⟩
        | running => exact ⟨[], rfl, by simp, by simp⟩
        | replaced => exact ⟨[], rfl, by simp, by simp⟩

/-- When the tick after `pre` breaks out of the loop, or falls through with a
non-zero status, the loop ends with it and `main` tears down and returns the
status that tick left. -/
theorem main_ends_at (opts : List GetoptResult) (su : Setup) (command : String) (c : Bool)
    (pre : List Tick) (t : Tick) (post : List Tick)
    (henter : enters_loop opts su command c)
    (hrun : (loop command c loop_init pre).ending = Ending.running)
    (hstop : (body command c (loop command c loop_init pre).state t).flow = Flow.brk ∨
      ((body command c (loop command c loop_init pre).state t).flow = Flow.next ∧
        (body command c (loop command c loop_init pre).state t).state.status ≠ 0)) :
    loop command c loop_init (pre ++ t :: post) =
      { state := (body command c (loop command c loop_init pre).state t).state,
        ending := Ending.exited,
        calls := (loop command c loop_init pre).calls ++
          (body command c (loop command c loop_init pre).state t).calls } ∧
    main opts su (pre ++ t :: post) =
      { ret := some (body command c (loop command c loop_init pre).state t).state.status,
        calls := setup_calls su ++
          ((loop command c loop_init pre).calls ++
            (body command c (loop command c loop_init pre).state t).calls) ++
          teardown (body command c (loop command c loop_init pre).state t).state.globals } := by
  have hst := loop_running_status command c loop_init pre hrun
  have hstop' : (body command c (loop command c loop_init pre).state t).flow ≠ Flow.next ∨
      (body command c (loop command c loop_init pre).state t).state.status ≠ 0 := by
    rcases hstop with h | h
    · left; rw [h]; simp
    · exact Or.inr h.2
  have hnr : (body command c (loop command c loop_init pre).state t).flow ≠ Flow.replaced := by
    rcases hstop with h | h
    · rw [h]; simp
    · rw [h.1]; simp
  obtain ⟨h1, h2, h3⟩ := loop_stops command c _ t post hst hstop'
  simp only [hnr, if_false] at h3
  have hloop : loop command c loop_init (pre ++ t :: post) =
      { state := (body command c (loop command c loop_init pre).state t).state,
        ending := Ending.exited,
        calls := (loop command c loop_init pre).calls ++
          (body command c (loop command c loop_init pre).state t).calls } := by
    rw [loop_append command c loop_init pre (t :: post) hrun, h1, h2, h3]
  refine ⟨hloop, ?_⟩
  rw [main_of_enters opts su command c _ henter, hloop]

/-! ## The launch gate -/

/-- C1.  Along every run of the event loop, the tick `t` that follows the ticks
`pre` launches the command (calls `fork`, line 272) if and only if no earlier
tick did, nothing ended the tick before the gate, and every overlay the gate
scans is READY; in the child (`fork` returning 0) the launch goes on with the
`execl` of `sh -c command`.  Whatever its inputs, `main` calls `fork` at most
once.  When nothing was launched before and the collection the gate scans is
empty, the tick calls `fork` and no capture request has been issued up to the
end of that tick. -/
theorem launch_gate (command : String) (overlay_cursor : Bool) (pre : List Tick) (t : Tick)
    (hrun : (loop command overlay_cursor loop_init pre).ending = Ending.running) :
    ((∃ x ∈ (body command overlay_cursor
          (loop command overlay_cursor loop_init pre).state t).calls, is_fork x = true) ↔
      (∀ x ∈ (loop command overlay_cursor loop_init pre).calls, is_fork x = false) ∧
      (pre_gate (loop command overlay_cursor loop_init pre).state t).flow = Flow.next ∧
      ∀ o ∈ (dispatched (loop command overlay_cursor loop_init pre).state t).globals.overlays,
        o.capture_status = capture_status.READY) ∧
    ((∃ x ∈ (body command overlay_cursor
          (loop command overlay_cursor loop_init pre).state t).calls, is_fork x = true) →
      t.fork = 0 →
      Call.execl command t.execl ∈
        (body command overlay_cursor (loop command overlay_cursor loop_init pre).state t).calls) ∧
    (∀ opts su ticks, (main opts su ticks).calls.countP is_fork ≤ 1) ∧
    ((∀ x ∈ (loop command overlay_cursor loop_init pre).calls, is_fork x = false) →
      (pre_gate (loop command overlay_cursor loop_init pre).state t).flow = Flow.next →
      (dispatched (loop command overlay_cursor loop_init pre).state t).globals.overlays = [] →
      Call.fork t.fork ∈
        (body command overlay_cursor (loop command overlay_cursor loop_init pre).state t).calls ∧
      ∀ x ∈ (loop command overlay_cursor loop_init pre).calls ++
          (body command overlay_cursor (loop command overlay_cursor loop_init pre).state t).calls,
        is_capture x = false) := by
  have inv := run_inv command overlay_cursor pre
  have hst := loop_running_status command overlay_cursor loop_init pre hrun
  have hpid : (loop command overlay_cursor loop_init pre).state.child_pid = -1 ↔
      ∀ x ∈ (loop command overlay_cursor loop_init pre).calls, is_fork x = false :=
    ⟨fun h => inv.launched h hst, inv.not_launched⟩
  refine ⟨?_, ?_, ?_, ?_⟩
  · rw [body_fork_iff, hpid]
    rfl
  · exact fun hf h0 => body_execl command overlay_cursor _ t hf h0
  · intro opts su ticks
    rcases main_calls opts su ticks with h | ⟨cmd, c, after, _, hcalls, hafter⟩
    · rw [countP_zero_of_forall _ _ (fun x hx => (h x hx).1)]; omega
    · rw [hcalls, List.countP_append, List.countP_append,
        countP_zero_of_forall _ _ (fun x hx => (setup_calls_plain su x hx).1),
        countP_zero_of_forall _ _ (fun x hx => (hafter x hx).1)]
      have := (run_inv cmd c ticks).fork_once
      omega
  · intro hnone hflow hempty
    constructor
    · rcases body_shape command overlay_cursor (loop command overlay_cursor loop_init pre).state t
        with ⟨h, _⟩ | ⟨_, hp, _⟩ | ⟨_, _, hr, _⟩ | ⟨_, _, _, st, flow, rest, hb, _, _, _⟩
      · rw [h] at hflow; cases hflow
      · exact absurd (hpid.2 hnone) hp
      · exact absurd (by intro o ho; rw [hempty] at ho; cases ho) hr
      · rw [hb]; simp
    · intro x hx
      by_contra hcap
      cases x <;> simp [is_capture] at hcap
      rename_i c' j
      simp only [List.mem_append] at hx
      rcases hx with hx | hx
      · obtain ⟨o, ho, _⟩ := dispatch_events_settled _ t.events j (inv.capture_settled c' j hx).2
        have ho' : (dispatched (loop command overlay_cursor loop_init pre).state
          t).globals.overlays[j]? = some o := ho
        rw [hempty] at ho'
        simp at ho'
      · obtain ⟨_, _, _, o, ho, _⟩ := (body_capture_iff command overlay_cursor _ t c' j).1 hx
        rw [hempty] at ho
        simp at ho

/-- C1 at a concrete run: with no output announced, the very first tick
launches the command. -/
theorem launch_gate_witness :
    (loop "true" false loop_init []).ending = Ending.running ∧
    (∃ x ∈ (body "true" false (loop "true" false loop_init []).state quiet_tick).calls,
      is_fork x = true) ∧
    Call.fork 100 ∈ (body "true" false (loop "true" false loop_init []).state quiet_tick).calls :=
  ⟨by decide,
   (launch_gate "true" false [] quiet_tick (by decide)).1.2 ⟨by decide, by decide, by decide⟩,
   ((launch_gate "true" false [] quiet_tick (by decide)).2.2.2
      (by decide) (by decide) (by decide)).1⟩

/-- C2.  If the gate scan of a tick, reached with no command launched yet,
finds an overlay FAILED, then `main` returns 1, no `fork` is called anywhere in
the run (not before, not in that tick, not later), and the loop ends at the end
of that tick: the body falls through to the loop condition, which fails, so
the calls of the loop stop with those of that tick. -/
theorem failed_overlay_aborts (opts : List GetoptResult) (su : Setup) (command : String)
    (overlay_cursor : Bool) (pre : List Tick) (t : Tick) (post : List Tick)
    (henter : enters_loop opts su command overlay_cursor)
    (hrun : (loop command overlay_cursor loop_init pre).ending = Ending.running)
    (hgate : (pre_gate (loop command overlay_cursor loop_init pre).state t).flow = Flow.next)
    (hpid : (loop command overlay_cursor loop_init pre).state.child_pid = -1)
    (hfailed : ∃ o ∈ (dispatched (loop command overlay_cursor loop_init pre).state
        t).globals.overlays, o.capture_status = capture_status.FAILED) :
    (main opts su (pre ++ t :: post)).ret = some 1 ∧
    (∀ x ∈ (main opts su (pre ++ t :: post)).calls, is_fork x = false) ∧
    (body command overlay_cursor (loop command overlay_cursor loop_init pre).state t).flow =
      Flow.next ∧
    (loop command overlay_cursor loop_init (pre ++ t :: post)).ending = Ending.exited ∧
    (loop command overlay_cursor loop_init (pre ++ t :: post)).calls =
      (loop command overlay_cursor loop_init pre).calls ++
        (body command overlay_cursor (loop command overlay_cursor loop_init pre).state t).calls := by
  have inv := run_inv command overlay_cursor pre
  have hst := loop_running_status command overlay_cursor loop_init pre hrun
  have hnr : ¬ gate_ready (loop command overlay_cursor loop_init pre).state t := by
    intro hr
    obtain ⟨o, ho, hf⟩ := hfailed
    have := hr o ho
    rw [hf] at this; cases this
  have hbody : (body command overlay_cursor (loop command overlay_cursor loop_init pre).state
        t).flow = Flow.next ∧
      (body command overlay_cursor (loop command overlay_cursor loop_init pre).state
        t).state.status = EXIT_FAILURE := by
    rcases body_shape command overlay_cursor (loop command overlay_cursor loop_init pre).state t
      with ⟨h, _⟩ | ⟨_, hp, _⟩ | ⟨_, _, _, hb⟩ | ⟨_, _, hr, _⟩
    · rw [h] at hgate; cases hgate
    · exact absurd hpid hp
    · rw [hb]
      refine ⟨rfl, ?_⟩
      simp only
      rw [gate_scan_status, if_pos hfailed]
    · exact absurd hr hnr
  have hends := main_ends_at opts su command overlay_cursor pre t post henter hrun
    (Or.inr ⟨hbody.1, by rw [hbody.2]; decide⟩)
  have hnofork : ∀ x ∈ (body command overlay_cursor
      (loop command overlay_cursor loop_init pre).state t).calls, is_fork x = false := by
    intro x hx
    by_contra hf
    exact hnr ((body_fork_iff command overlay_cursor _ t).1 ⟨x, hx, by simpa using hf⟩).2.2
  refine ⟨?_, ?_, hbody.1, ?_, ?_⟩
  · rw [hends.2]
    simp only [hbody.2]
    rfl
  · rw [hends.2]
    intro x hx
    simp only [List.mem_append] at hx
    rcases hx with (hx | hx | hx) | hx
    · exact (setup_calls_plain su x hx).1
    · exact inv.launched hpid hst x hx
    · exact hnofork x hx
    · exact (teardown_plain _ x hx).1
  · rw [hends.1]
  · rw [hends.1]

/-- C2 at a concrete run: two outputs, the first capture fails in the second
tick; `main` returns 1 whatever ticks might follow. -/
theorem failed_overlay_aborts_witness :
    (main opts_command setup_good
      ([event_tick [Event.global 1 "wl_output" 4, Event.global 2 "wl_output" 4]] ++
        event_tick [Event.frame_failed 0] :: [quiet_tick])).ret = some 1 :=
  (failed_overlay_aborts opts_command setup_good "true" false
    [event_tick [Event.global 1 "wl_output" 4, Event.global 2 "wl_output" 4]]
    (event_tick [Event.frame_failed 0]) [quiet_tick]
    (by decide) (by decide) (by decide) (by decide) (by decide)).1

/-! ## Exit status -/

theorem exited_with_spec (code : Nat) (h : code < 256) :
    WIFEXITED (exited_with code) = true ∧ WEXITSTATUS (exited_with code) = code := by
  unfold WIFEXITED WEXITSTATUS WTERMSIG exited_with
  constructor
  · simp; omega
  · omega

theorem pre_gate_of_connection (s : LoopState) (t : Tick)
    (h : (connection_phase s t).flow = Flow.next) :
    pre_gate s t =
      { state := (sigchld_phase (dispatched s t) t).state,
        flow := (sigchld_phase (dispatched s t) t).flow,
        calls := (connection_phase s t).calls ++ (sigchld_phase (dispatched s t) t).calls } := by
  unfold pre_gate
  rw [andThen_next _ _ h, connection_phase_next s t h]
  rfl

theorem body_of_pre_gate_brk (command : String) (c : Bool) (s : LoopState) (t : Tick)
    (h : (pre_gate s t).flow = Flow.brk) : body command c s t = pre_gate s t := by
  unfold body
  rw [andThen_brk _ _ h]

/-- C3.  If the tick after `pre` gets as far as the child-termination
notification, reads one full notification for SIGCHLD, and `waitpid` reports a
child that exited normally with code `code`, then the body breaks out of the
loop in that tick (also when `code` is 0), the loop ends there, and `main`
returns exactly `code`, a value in 0..255, after the teardown. -/
theorem child_exit_code (opts : List GetoptResult) (su : Setup) (command : String)
    (overlay_cursor : Bool) (pre : List Tick) (t : Tick) (post : List Tick) (code : Nat)
    (henter : enters_loop opts su command overlay_cursor)
    (hrun : (loop command overlay_cursor loop_init pre).ending = Ending.running)
    (hconn : (connection_phase (loop command overlay_cursor loop_init pre).state t).flow =
      Flow.next)
    (hsig : t.sigchld_pollin = true) (hread : t.read = SIGINFO_SIZE)
    (hsigno : t.ssi_signo = SIGCHLD) (hwait : t.waitpid ≠ -1)
    (hexited : WIFEXITED t.wstatus = true) (hcode : WEXITSTATUS t.wstatus = code) :
    (main opts su (pre ++ t :: post)).ret = some (code : Int) ∧
    code < 256 ∧
    (body command overlay_cursor (loop command overlay_cursor loop_init pre).state t).flow =
      Flow.brk ∧
    (loop command overlay_cursor loop_init (pre ++ t :: post)).ending = Ending.exited ∧
    (main opts su (pre ++ t :: post)).calls =
      setup_calls su ++
        ((loop command overlay_cursor loop_init pre).calls ++
          (body command overlay_cursor (loop command overlay_cursor loop_init pre).state t).calls) ++
        teardown (body command overlay_cursor
          (loop command overlay_cursor loop_init pre).state t).state.globals := by
  have hsp : ∀ s : LoopState, (sigchld_phase s t).flow = Flow.brk ∧
      (sigchld_phase s t).state.status = (code : Int) := by
    intro s
    simp [sigchld_phase, hsig, hread, hsigno, hwait, hexited, hcode]
  have hpg : (pre_gate (loop command overlay_cursor loop_init pre).state t).flow = Flow.brk ∧
      (pre_gate (loop command overlay_cursor loop_init pre).state t).state.status =
        (code : Int) := by
    rw [pre_gate_of_connection _ t hconn]
    exact hsp _
  have hb := body_of_pre_gate_brk command overlay_cursor _ t hpg.1
  have hends := main_ends_at opts su command overlay_cursor pre t post henter hrun
    (Or.inl (by rw [hb]; exact hpg.1))
  refine ⟨?_, ?_, ?_, ?_, ?_⟩
  · rw [hends.2, hb]
    simp only [hpg.2]
  · rw [← hcode]
    unfold WEXITSTATUS
    omega
  · rw [hb]; exact hpg.1
  · rw [hends.1]
  · rw [hends.2]

/-- C3 at concrete runs: the command is launched in the first tick and the
child exits with code 42, respectively 0, in the second; `main` returns 42,
respectively 0. -/
theorem child_exit_code_witness :
    (main opts_command setup_good
      ([quiet_tick] ++ reap_tick (exited_with 42) :: [quiet_tick])).ret = some 42 ∧
    (main opts_command setup_good
      ([quiet_tick] ++ reap_tick (exited_with 0) :: [quiet_tick])).ret = some 0 :=
  ⟨(child_exit_code opts_command setup_good "true" false [quiet_tick]
      (reap_tick (exited_with 42)) [quiet_tick] 42
      (by decide) (by decide) (by decide) (by decide) (by decide) (by decide) (by decide)
      (by decide) (by decide)).1,
   (child_exit_code opts_command setup_good "true" false [quiet_tick]
      (reap_tick (exited_with 0)) [quiet_tick] 0
      (by decide) (by decide) (by decide) (by decide) (by decide) (by decide) (by decide)
      (by decide) (by decide)).1⟩

theorem WIFSIGNALED_spec (wstatus : Nat) (h : WIFSIGNALED wstatus = true) :
    WIFEXITED wstatus = false ∧ 1 ≤ WTERMSIG wstatus ∧ WTERMSIG wstatus ≤ 126 := by
  unfold WIFSIGNALED at h
  unfold WIFEXITED
  simp only [decide_eq_true_eq] at h
  have hlt : WTERMSIG wstatus < 128 := by unfold WTERMSIG; omega
  generalize WTERMSIG wstatus = n at h hlt ⊢
  have h1 : 1 ≤ n ∧ n ≤ 126 := by
    constructor
    · by_contra hn
      have : n = 0 := by omega
      subst this
      simp at h
    · by_contra hn
      have : n = 127 := by omega
      subst this
      simp at h
  refine ⟨?_, h1⟩
  simp
  omega

/-- C4, refuted as stated: a child killed by signal 9 and a child that exits
normally with code 255 give the parent the same exit status, 255. -/
theorem signal_status_collides :
    (main opts_command setup_good [quiet_tick, reap_tick (killed_by 9)]).ret = some (-1) ∧
    (main opts_command setup_good [quiet_tick, reap_tick (exited_with 255)]).ret = some 255 ∧
    exit_status (-1) = exit_status 255 := by
  decide

/-- C4, amended.  If the tick after `pre` reads the child-termination
notification and `waitpid` reports a child killed by a signal, then `main`
prints a diagnostic naming the signal and returns -1, which no normally
exiting child yields as the value `main` returns; reduced modulo 256 it is 255:
not 0, not the signal number, and different from the exit status of every
normally exiting child except one that exits with code 255. -/
theorem signal_exit_status (opts : List GetoptResult) (su : Setup) (command : String)
    (overlay_cursor : Bool) (pre : List Tick) (t : Tick) (post : List Tick)
    (henter : enters_loop opts su command overlay_cursor)
    (hrun : (loop command overlay_cursor loop_init pre).ending = Ending.running)
    (hconn : (connection_phase (loop command overlay_cursor loop_init pre).state t).flow =
      Flow.next)
    (hsig : t.sigchld_pollin = true) (hread : t.read = SIGINFO_SIZE)
    (hsigno : t.ssi_signo = SIGCHLD) (hwait : t.waitpid ≠ -1)
    (hsignaled : WIFSIGNALED t.wstatus = true) :
    (main opts su (pre ++ t :: post)).ret = some (-1) ∧
    Call.psignal (WTERMSIG t.wstatus) ∈ (main opts su (pre ++ t :: post)).calls ∧
    (∀ code : Nat, code < 256 → (code : Int) ≠ -1) ∧
    exit_status (-1) = 255 ∧
    exit_status (-1) ≠ 0 ∧
    exit_status (-1) ≠ (WTERMSIG t.wstatus : Int) ∧
    (∀ code : Nat, code < 255 → exit_status (-1) ≠ exit_status (code : Int)) := by
  obtain ⟨hne, _, hle⟩ := WIFSIGNALED_spec t.wstatus hsignaled
  have hsp : ∀ s : LoopState, (sigchld_phase s t).flow = Flow.brk ∧
      (sigchld_phase s t).state.status = -1 ∧
      Call.psignal (WTERMSIG t.wstatus) ∈ (sigchld_phase s t).calls := by
    intro s
    simp [sigchld_phase, hsig, hread, hsigno, hwait, hne, hsignaled]
  have hpg : (pre_gate (loop command overlay_cursor loop_init pre).state t).flow = Flow.brk ∧
      (pre_gate (loop command overlay_cursor loop_init pre).state t).state.status = -1 ∧
      Call.psignal (WTERMSIG t.wstatus) ∈
        (pre_gate (loop command overlay_cursor loop_init pre).state t).calls := by
    rw [pre_gate_of_connection _ t hconn]
    refine ⟨(hsp _).1, (hsp _).2.1, ?_⟩
    simp only [List.mem_append]
    exact Or.inr (hsp _).2.2
  have hb := body_of_pre_gate_brk command overlay_cursor _ t hpg.1
  have hends := main_ends_at opts su command overlay_cursor pre t post henter hrun
    (Or.inl (by rw [hb]; exact hpg.1))
  refine ⟨?_, ?_, ?_, ?_, ?_, ?_, ?_⟩
  · rw [hends.2, hb]
    simp only [hpg.2.1]
  · rw [hends.2, hb]
    simp only [List.mem_append]
    exact Or.inl (Or.inr (Or.inr hpg.2.2))
  · intro code _; omega
  · decide
  · decide
  · unfold exit_status; omega
  · intro code hcode
    unfold exit_status
    omega

/-- C4, amended, at a concrete run: the child is killed by signal 9. -/
theorem signal_exit_status_witness :
    (main opts_command setup_good ([quiet_tick] ++ reap_tick (killed_by 9) :: [])).ret =
      some (-1) ∧
    Call.psignal 9 ∈
      (main opts_command setup_good ([quiet_tick] ++ reap_tick (killed_by 9) :: [])).calls :=
  ⟨(signal_exit_status opts_command setup_good "true" false [quiet_tick]
      (reap_tick (killed_by 9)) []
      (by decide) (by decide) (by decide) (by decide) (by decide) (by decide) (by decide)
      (by decide)).1,
   (signal_exit_status opts_command setup_good "true" false [quiet_tick]
      (reap_tick (killed_by 9)) []
      (by decide) (by decide) (by decide) (by decide) (by decide) (by decide) (by decide)
      (by decide)).2.1⟩

/-! ## Overlays while the command runs -/

theorem ready_then_pending_iff (n : Nat) (g : globals) :
    ready_then_pending n g ↔
      ∃ k, statuses g = List.replicate n capture_status.READY ++
        List.replicate k capture_status.PENDING := by
  constructor
  · intro h; exact ⟨_, h⟩
  · rintro ⟨k, hk⟩
    have hlen : g.overlays.length = n + k := by
      have := congrArg List.length hk
      simpa [statuses] using this
    unfold ready_then_pending
    rw [hk, hlen]
    simp

theorem update_overlay_statuses (f : overlay → overlay) (os : List overlay) (i : Nat)
    (h : ∀ o ∈ os, (f o).capture_status = o.capture_status) :
    (update_overlay f os i).map (fun o => o.capture_status) =
      os.map (fun o => o.capture_status) := by
  induction os generalizing i with
  | nil => simp [update_overlay]
  | cons o os ih =>
    cases i with
    | zero => simp [update_overlay, h o (by simp)]
    | succ i =>
      simp only [update_overlay, List.map_cons]
      rw [ih i fun o' ho' => h o' (by simp [ho'])]

theorem handle_event_ready_then_pending (n : Nat) (g : globals) (e : Event)
    (h : ready_then_pending n g) : ready_then_pending n (handle_event g e) := by
  rw [ready_then_pending_iff] at h ⊢
  obtain ⟨k, hk⟩ := h
  have hmem : ∀ o ∈ g.overlays, o.capture_status ≠ capture_status.WAITING := by
    intro o ho hw
    have : o.capture_status ∈ statuses g := by
      unfold statuses
      exact List.mem_map.2 ⟨o, ho, rfl⟩
    rw [hk, List.mem_append] at this
    rcases this with h1 | h1
    · have := (List.mem_replicate.1 h1).2
      rw [hw] at this; cases this
    · have := (List.mem_replicate.1 h1).2
      rw [hw] at this; cases this
  cases e with
  | global name interface version =>
    simp only [handle_event, registry_handle_global]
    split_ifs
    · exact ⟨k, hk⟩
    · exact ⟨k, hk⟩
    · refine ⟨k + 1, ?_⟩
      unfold statuses at hk ⊢
      simp only [List.map_append, hk, List.map_cons, List.map_nil, List.append_assoc]
      rw [List.replicate_succ']
    · exact ⟨k, hk⟩
    · exact ⟨k, hk⟩
    · exact ⟨k, hk⟩
    · exact ⟨k, hk⟩
  | output_geometry i transform =>
    refine ⟨k, ?_⟩
    unfold statuses at hk ⊢
    simp only [handle_event]
    rw [update_overlay_statuses, hk]
    intro o _
    unfold output_handle_geometry
    split_ifs <;> rfl
  | frame_ready i =>
    refine ⟨k, ?_⟩
    unfold statuses at hk ⊢
    simp only [handle_event]
    rw [update_overlay_statuses, hk]
    intro o ho
    unfold frame_handle_ready
    rw [if_neg (hmem o ho)]
  | frame_failed i =>
    refine ⟨k, ?_⟩
    unfold statuses at hk ⊢
    simp only [handle_event]
    rw [update_overlay_statuses, hk]
    intro o ho
    unfold frame_handle_failed
    rw [if_neg (hmem o ho)]
  | _ => exact ⟨k, hk⟩

theorem dispatch_events_ready_then_pending (n : Nat) (g : globals) (events : List Event)
    (h : ready_then_pending n g) : ready_then_pending n (dispatch_events g events) := by
  induction events generalizing g with
  | nil => exact h
  | cons e es ih => exact ih (handle_event g e) (handle_event_ready_then_pending n g e h)

/-- Once a child exists the body leaves the shape of the collection alone. -/
theorem body_ready_then_pending (command : String) (c : Bool) (n : Nat) (s : LoopState)
    (t : Tick) (hp : s.child_pid ≠ -1) (h : ready_then_pending n s.globals) :
    (body command c s t).state.child_pid ≠ -1 ∧
      ready_then_pending n (body command c s t).state.globals := by
  have hd : ready_then_pending n (dispatched s t).globals :=
    dispatch_events_ready_then_pending n _ _ h
  rcases body_shape command c s t with ⟨_, hb⟩ | ⟨_, _, hb⟩ | ⟨_, hp', _⟩ | ⟨_, hp', _⟩
  · rw [hb, pre_gate_child_pid]
    refine ⟨hp, ?_⟩
    rcases pre_gate_globals s t with hg | hg
    · rw [hg]; exact h
    · rw [hg]; exact hd
  · rw [hb]; exact ⟨hp, hd⟩
  · exact absurd hp' hp
  · exact absurd hp' hp

theorem loop_ready_then_pending (command : String) (c : Bool) (n : Nat) (s : LoopState)
    (ticks : List Tick) (hp : s.child_pid ≠ -1) (h : ready_then_pending n s.globals) :
    ready_then_pending n (loop command c s ticks).state.globals := by
  have := loop_inv command c
    (fun s _ => s.child_pid ≠ -1 ∧ ready_then_pending n s.globals)
    (fun s t _ _ inv => body_ready_then_pending command c n s t inv.1 inv.2)
    s [] ⟨hp, h⟩ ticks
  exact this.2

theorem ready_then_pending_of_ready (g : globals)
    (h : ∀ o ∈ g.overlays, o.capture_status = capture_status.READY) :
    ready_then_pending g.overlays.length g := by
  unfold ready_then_pending statuses
  simp only [Nat.sub_self, List.replicate_zero, List.append_nil]
  rw [List.eq_replicate_iff]
  refine ⟨by simp, ?_⟩
  intro st hst
  obtain ⟨o, ho, rfl⟩ := List.mem_map.1 hst
  exact h o ho

/-- C5, refuted as stated: the first tick launches the command with no output
known; the second tick announces an output; the command is running and the
collection holds a PENDING overlay. -/
theorem hotplug_after_launch :
    (loop "true" false loop_init
      [quiet_tick, event_tick [Event.global 7 "wl_output" 4]]).ending = Ending.running ∧
    Call.fork 100 ∈ (loop "true" false loop_init
      [quiet_tick, event_tick [Event.global 7 "wl_output" 4]]).calls ∧
    statuses (loop "true" false loop_init
      [quiet_tick, event_tick [Event.global 7 "wl_output" 4]]).state.globals =
        [capture_status.PENDING] := by
  decide

/-- C5, amended.  If the tick after `pre` launches the command, every overlay
in the collection at the end of that tick is READY, and after any further
ticks those overlays are still READY while every overlay appended since is
PENDING: no overlay is WAITING or FAILED once the command has been launched. -/
theorem launched_overlays (command : String) (overlay_cursor : Bool) (pre : List Tick)
    (t : Tick) (more : List Tick)
    (hrun : (loop command overlay_cursor loop_init pre).ending = Ending.running)
    (hlaunch : ∃ x ∈ (body command overlay_cursor
      (loop command overlay_cursor loop_init pre).state t).calls, is_fork x = true) :
    (∀ o ∈ (body command overlay_cursor
        (loop command overlay_cursor loop_init pre).state t).state.globals.overlays,
      o.capture_status = capture_status.READY) ∧
    ready_then_pending
      (body command overlay_cursor
        (loop command overlay_cursor loop_init pre).state t).state.globals.overlays.length
      (loop command overlay_cursor loop_init (pre ++ t :: more)).state.globals ∧
    (∀ o ∈ (loop command overlay_cursor loop_init (pre ++ t :: more)).state.globals.overlays,
      o.capture_status = capture_status.READY ∨ o.capture_status = capture_status.PENDING) := by
  have hst := loop_running_status command overlay_cursor loop_init pre hrun
  obtain ⟨hpid, hglob, hfail⟩ := body_fork_state command overlay_cursor _ t hlaunch
  have hready : ∀ o ∈ (body command overlay_cursor
      (loop command overlay_cursor loop_init pre).state t).state.globals.overlays,
      o.capture_status = capture_status.READY := by
    rw [hglob]
    exact ((body_fork_iff command overlay_cursor _ t).1 hlaunch).2.2
  have hshape : ready_then_pending
      (body command overlay_cursor
        (loop command overlay_cursor loop_init pre).state t).state.globals.overlays.length
      (loop command overlay_cursor loop_init (pre ++ t :: more)).state.globals := by
    rw [loop_append command overlay_cursor loop_init pre (t :: more) hrun]
    simp only [loop, hst, if_true]
    cases hf : (body command overlay_cursor
        (loop command overlay_cursor loop_init pre).state t).flow with
    | next =>
      simp only
      apply loop_ready_then_pending
      · rw [hpid]
        intro h
        have := (hfail h).2
        rw [hf] at this; cases this
      · exact ready_then_pending_of_ready _ hready
    | brk => exact ready_then_pending_of_ready _ hready
    | replaced => exact ready_then_pending_of_ready _ hready
  refine ⟨hready, hshape, ?_⟩
  intro o ho
  have hmem : o.capture_status ∈
      statuses (loop command overlay_cursor loop_init (pre ++ t :: more)).state.globals :=
    List.mem_map.2 ⟨o, ho, rfl⟩
  rw [hshape, List.mem_append] at hmem
  rcases hmem with h | h
  · exact Or.inl (List.mem_replicate.1 h).2
  · exact Or.inr (List.mem_replicate.1 h).2

/-- C5, amended, at a concrete run: one output is captured, the command is
launched in the second tick, and a second output is announced afterwards. -/
theorem launched_overlays_witness :
    statuses (loop "true" false loop_init
      ([event_tick [Event.global 1 "wl_output" 4]] ++
        event_tick [Event.frame_ready 0] :: [event_tick [Event.global 2 "wl_output" 4]])
      ).state.globals = [capture_status.READY, capture_status.PENDING] :=
  (launched_overlays "true" false [event_tick [Event.global 1 "wl_output" 4]]
    (event_tick [Event.frame_ready 0]) [event_tick [Event.global 2 "wl_output" 4]]
    (by decide) (by decide)).2.1

/-! ## Capture requests -/

theorem loop_cons_calls (command : String) (c : Bool) (s : LoopState) (t : Tick)
    (post : List Tick) (hs : s.status = 0) :
    ∃ rest, (loop command c s (t :: post)).calls = (body command c s t).calls ++ rest := by
  simp only [loop, hs, if_true]
  cases hf : (body command c s t).flow with
  | next => exact ⟨_, rfl⟩
  | brk => exact ⟨[], by simp⟩
  | replaced => exact ⟨[], by simp⟩

/-- C6, refuted as stated: the first output's capture fails in the tick that
announces a second output; the gate scans FAILED, PENDING and requests a
capture for the second overlay all the same. -/
theorem capture_despite_failed :
    statuses (dispatched
      (loop "true" false loop_init [event_tick [Event.global 1 "wl_output" 4]]).state
      (event_tick [Event.frame_failed 0, Event.global 2 "wl_output" 4])).globals =
        [capture_status.FAILED, capture_status.PENDING] ∧
    Call.capture false 1 ∈ (body "true" false
      (loop "true" false loop_init [event_tick [Event.global 1 "wl_output" 4]]).state
      (event_tick [Event.frame_failed 0, Event.global 2 "wl_output" 4])).calls := by
  decide

/-- C6, amended.  If the gate scan of a tick, reached with no command launched
yet, finds an overlay FAILED, the scan still requests a capture for exactly the
overlays that are PENDING in it, wherever the FAILED one sits; the command is
not launched; and the loop ends with that tick, so no capture request is
issued afterwards. -/
theorem failed_scan_captures (command : String) (overlay_cursor : Bool) (pre : List Tick)
    (t : Tick) (post : List Tick)
    (hrun : (loop command overlay_cursor loop_init pre).ending = Ending.running)
    (hgate : (pre_gate (loop command overlay_cursor loop_init pre).state t).flow = Flow.next)
    (hpid : (loop command overlay_cursor loop_init pre).state.child_pid = -1)
    (hfailed : ∃ o ∈ (dispatched (loop command overlay_cursor loop_init pre).state
        t).globals.overlays, o.capture_status = capture_status.FAILED) :
    (∀ c' j, Call.capture c' j ∈ (body command overlay_cursor
        (loop command overlay_cursor loop_init pre).state t).calls ↔
      c' = overlay_cursor ∧
      ∃ o, (dispatched (loop command overlay_cursor loop_init pre).state
          t).globals.overlays[j]? = some o ∧ o.capture_status = capture_status.PENDING) ∧
    (∀ x ∈ (body command overlay_cursor
        (loop command overlay_cursor loop_init pre).state t).calls, is_fork x = false) ∧
    (loop command overlay_cursor loop_init (pre ++ t :: post)).calls =
      (loop command overlay_cursor loop_init pre).calls ++
        (body command overlay_cursor (loop command overlay_cursor loop_init pre).state t).calls := by
  have hst := loop_running_status command overlay_cursor loop_init pre hrun
  have hnr : ¬ gate_ready (loop command overlay_cursor loop_init pre).state t := by
    intro hr
    obtain ⟨o, ho, hf⟩ := hfailed
    have := hr o ho
    rw [hf] at this; cases this
  refine ⟨?_, ?_, ?_⟩
  · intro c' j
    rw [body_capture_iff]
    constructor
    · rintro ⟨h1, _, _, h2⟩; exact ⟨h1, h2⟩
    · rintro ⟨h1, h2⟩; exact ⟨h1, hpid, hgate, h2⟩
  · intro x hx
    by_contra hf
    exact hnr ((body_fork_iff command overlay_cursor _ t).1 ⟨x, hx, by simpa using hf⟩).2.2
  · have hstatus : (body command overlay_cursor
        (loop command overlay_cursor loop_init pre).state t).state.status ≠ 0 := by
      rcases body_shape command overlay_cursor (loop command overlay_cursor loop_init pre).state
        t with ⟨h, _⟩ | ⟨_, hp, _⟩ | ⟨_, _, _, hb⟩ | ⟨_, _, hr, _⟩
      · rw [h] at hgate; cases hgate
      · exact absurd hpid hp
      · rw [hb]
        simp only
        rw [gate_scan_status, if_pos hfailed]
        decide
      · exact absurd hr hnr
    rw [loop_append command overlay_cursor loop_init pre (t :: post) hrun]
    simp only
    rw [(loop_stops command overlay_cursor _ t post hst (Or.inr hstatus)).2.1]

/-- C6, amended, at a concrete run: the scan of FAILED, PENDING requests the
capture of overlay 1 and nothing follows the tick. -/
theorem failed_scan_captures_witness :
    Call.capture false 1 ∈ (body "true" false
      (loop "true" false loop_init [event_tick [Event.global 1 "wl_output" 4]]).state
      (event_tick [Event.frame_failed 0, Event.global 2 "wl_output" 4])).calls ∧
    (loop "true" false loop_init
      ([event_tick [Event.global 1 "wl_output" 4]] ++
        event_tick [Event.frame_failed 0, Event.global 2 "wl_output" 4] ::
          [quiet_tick])).calls =
      (loop "true" false loop_init [event_tick [Event.global 1 "wl_output" 4]]).calls ++
        (body "true" false
          (loop "true" false loop_init [event_tick [Event.global 1 "wl_output" 4]]).state
          (event_tick [Event.frame_failed 0, Event.global 2 "wl_output" 4])).calls :=
  ⟨((failed_scan_captures "true" false [event_tick [Event.global 1 "wl_output" 4]]
      (event_tick [Event.frame_failed 0, Event.global 2 "wl_output" 4]) [quiet_tick]
      (by decide) (by decide) (by decide) (by decide)).1 false 1).2 ⟨rfl, by decide⟩,
   (failed_scan_captures "true" false [event_tick [Event.global 1 "wl_output" 4]]
      (event_tick [Event.frame_failed 0, Event.global 2 "wl_output" 4]) [quiet_tick]
      (by decide) (by decide) (by decide) (by decide)).2.2⟩

theorem getopt_loop_cursor (opts : List GetoptResult) (cmd : Option String) (b : Bool)
    (cmd' : Option String) (c : Bool) (h : getopt_loop opts cmd b = Parsed.parsed cmd' c) :
    c = (b || pointer_requested opts) := by
  induction opts generalizing cmd b with
  | nil =>
    simp only [getopt_loop, Parsed.parsed.injEq] at h
    simp [pointer_requested, h.2]
  | cons r rest ih =>
    simp only [getopt_loop] at h
    split_ifs at h with h1 h2 h3
    · have := ih _ _ h
      simp [pointer_requested, h1] at this ⊢
      exact this
    · have := ih _ _ h
      simp [pointer_requested, h3] at this ⊢
      exact this

/-- C7.  For all inputs of `main` and every output count: a capture is
requested at most once per overlay; no capture is requested from the launch
(the `fork`) on; every request carries the flag that tells whether `-p` was
given (so `false` without `-p`); and an overlay that is PENDING in a gate scan
made before any launch gets exactly one request in the whole run.  The
assumption of the claim is how `capture` and the frame listeners are modelled:
a request moves its overlay to WAITING and no listener writes PENDING. -/
theorem capture_requests (opts : List GetoptResult) (su : Setup) (command : String)
    (overlay_cursor : Bool) (pre : List Tick) (t : Tick) (post : List Tick) (j : Nat)
    (henter : enters_loop opts su command overlay_cursor)
    (hrun : (loop command overlay_cursor loop_init pre).ending = Ending.running)
    (hgate : (pre_gate (loop command overlay_cursor loop_init pre).state t).flow = Flow.next)
    (hpid : (loop command overlay_cursor loop_init pre).state.child_pid = -1)
    (hpending : ∃ o, (dispatched (loop command overlay_cursor loop_init pre).state
        t).globals.overlays[j]? = some o ∧ o.capture_status = capture_status.PENDING) :
    (∀ opts' su' ticks i, (main opts' su' ticks).calls.countP (is_capture_of i) ≤ 1) ∧
    (∀ opts' su' ticks, ∀ x ∈ from_launch (main opts' su' ticks).calls, is_capture x = false) ∧
    (∀ opts' su' ticks c' i, Call.capture c' i ∈ (main opts' su' ticks).calls →
      c' = pointer_requested opts') ∧
    (main opts su (pre ++ t :: post)).calls.countP (is_capture_of j) = 1 ∧
    Call.capture (pointer_requested opts) j ∈ (main opts su (pre ++ t :: post)).calls := by
  have hcount : ∀ opts' su' ticks i,
      (main opts' su' ticks).calls.countP (is_capture_of i) ≤ 1 := by
    intro opts' su' ticks i
    rcases main_calls opts' su' ticks with h | ⟨cmd, c, after, _, hcalls, hafter⟩
    · rw [capture_of_zero i _ (fun x hx => (h x hx).2)]; omega
    · rw [hcalls, List.countP_append, List.countP_append,
        capture_of_zero i _ (fun x hx => (setup_calls_plain su' x hx).2),
        capture_of_zero i _ (fun x hx => (hafter x hx).2)]
      have := (run_inv cmd c ticks).capture_once i
      omega
  have hflag : ∀ opts' su' ticks c' i, Call.capture c' i ∈ (main opts' su' ticks).calls →
      c' = pointer_requested opts' := by
    intro opts' su' ticks c' i hx
    rcases main_calls opts' su' ticks with h | ⟨cmd, c, after, hparse, hcalls, hafter⟩
    · have := (h _ hx).2
      cases this
    · rw [hcalls] at hx
      simp only [List.mem_append] at hx
      rcases hx with (hx | hx) | hx
      · have := (setup_calls_plain su' _ hx).2
        cases this
      · rw [((run_inv cmd c ticks).capture_settled c' i hx).1]
        simpa using getopt_loop_cursor opts' none false _ c hparse
      · have := (hafter _ hx).2
        cases this
  have hst := loop_running_status command overlay_cursor loop_init pre hrun
  have hmem : Call.capture overlay_cursor j ∈ (main opts su (pre ++ t :: post)).calls := by
    have hb : Call.capture overlay_cursor j ∈ (body command overlay_cursor
        (loop command overlay_cursor loop_init pre).state t).calls :=
      (body_capture_iff command overlay_cursor _ t overlay_cursor j).2
        ⟨rfl, hpid, hgate, hpending⟩
    obtain ⟨rest, hrest⟩ := loop_cons_calls command overlay_cursor _ t post hst
    have hl : Call.capture overlay_cursor j ∈
        (loop command overlay_cursor loop_init (pre ++ t :: post)).calls := by
      rw [loop_append command overlay_cursor loop_init pre (t :: post) hrun]
      simp only [hrest, List.mem_append]
      exact Or.inr (Or.inl hb)
    rw [main_of_enters opts su command overlay_cursor _ henter]
    cases (loop command overlay_cursor loop_init (pre ++ t :: post)).ending <;>
      simp only [List.mem_append] <;> tauto
  refine ⟨hcount, ?_, hflag, ?_, ?_⟩
  · intro opts' su' ticks x hx
    rcases main_calls opts' su' ticks with h | ⟨cmd, c, after, _, hcalls, hafter⟩
    · exact (h x (from_launch_subset _ x hx)).2
    · rw [hcalls, List.append_assoc,
        from_launch_append_of_none _ _ (fun y hy => (setup_calls_plain su' y hy).1)] at hx
      rcases mem_from_launch_append _ _ x hx with hx | hx
      · exact (run_inv cmd c ticks).after_fork x hx
      · exact (hafter x hx).2
  · have hle := hcount opts su (pre ++ t :: post) j
    have hpos : 0 < (main opts su (pre ++ t :: post)).calls.countP (is_capture_of j) := by
      rw [List.countP_pos_iff]
      exact ⟨_, hmem, by simp [is_capture_of]⟩
    omega
  · rw [← hflag opts su (pre ++ t :: post) overlay_cursor j hmem]
    exact hmem

/-- C7 at a concrete run with `-p`: two outputs announced in the first tick,
both captured once with the cursor flag set. -/
theorem capture_requests_witness :
    (main [{ option := 'p', optarg := none }, { option := 'c', optarg := some "true" }]
      setup_good
      ([] ++ event_tick [Event.global 1 "wl_output" 4, Event.global 2 "wl_output" 4] ::
        [event_tick [Event.frame_ready 0, Event.frame_ready 1]])).calls.countP
      (is_capture_of 1) = 1 ∧
    Call.capture true 1 ∈
      (main [{ option := 'p', optarg := none }, { option := 'c', optarg := some "true" }]
        setup_good
        ([] ++ event_tick [Event.global 1 "wl_output" 4, Event.global 2 "wl_output" 4] ::
          [event_tick [Event.frame_ready 0, Event.frame_ready 1]])).calls :=
  (capture_requests [{ option := 'p', optarg := none }, { option := 'c', optarg := some "true" }]
    setup_good "true" true []
    (event_tick [Event.global 1 "wl_output" 4, Event.global 2 "wl_output" 4])
    [event_tick [Event.frame_ready 0, Event.frame_ready 1]] 1
    (by decide) (by decide) (by decide) (by decide) (by decide)).2.2.2

/-! ## Required globals -/

/-- C8.  The code at the failing input: `still -c true` with every set-up call
succeeding and a compositor that announces no global, so that all five
required globals are missing.  `main` does not fail fast: after the first tick
it has made the set-up calls, the five connection calls and the `fork` that
launches the command, with no diagnostic, and has not returned.  When the
child later exits, the teardown hands each of the five null objects to its
destroy call (lines 300-304).  With an output but no screen-capture factory
announced, a capture is requested. -/
theorem required_globals_unchecked :
    main opts_command setup_good [quiet_tick] =
      { ret := none,
        calls := setup_calls setup_good ++
          [Call.wl_display_prepare_read 0, Call.wl_display_flush 0, Call.poll 1,
           Call.wl_display_read_events 0, Call.wl_display_dispatch_pending 0,
           Call.fork 100] } ∧
    Call.zwlr_screencopy_manager_v1_destroy none ∈
      (main opts_command setup_good [quiet_tick, reap_tick (exited_with 0)]).calls ∧
    Call.zwlr_layer_shell_v1_destroy none ∈
      (main opts_command setup_good [quiet_tick, reap_tick (exited_with 0)]).calls ∧
    Call.wp_viewporter_destroy none ∈
      (main opts_command setup_good [quiet_tick, reap_tick (exited_with 0)]).calls ∧
    Call.wl_compositor_destroy none ∈
      (main opts_command setup_good [quiet_tick, reap_tick (exited_with 0)]).calls ∧
    Call.wl_shm_destroy none ∈
      (main opts_command setup_good [quiet_tick, reap_tick (exited_with 0)]).calls ∧
    Call.capture false 0 ∈
      (main opts_command setup_good [event_tick [Event.global 1 "wl_output" 4]]).calls := by
  decide

/-! ## Usage errors -/

theorem getopt_loop_skip (before : List GetoptResult)
    (h : ∀ x ∈ before, x.option = 'c' ∨ x.option = 'p') (cmd : Option String) (b : Bool) :
    ∃ cmd' b', ∀ rest, getopt_loop (before ++ rest) cmd b = getopt_loop rest cmd' b' := by
  induction before generalizing cmd b with
  | nil => exact ⟨cmd, b, fun _ => rfl⟩
  | cons x xs ih =>
    have hxs : ∀ y ∈ xs, y.option = 'c' ∨ y.option = 'p' := fun y hy => h y (by simp [hy])
    rcases h x (by simp) with hx | hx
    · obtain ⟨cmd', b', h'⟩ := ih hxs x.optarg b
      exact ⟨cmd', b', fun rest => by simp [getopt_loop, hx, h' rest]⟩
    · obtain ⟨cmd', b', h'⟩ := ih hxs cmd true
      exact ⟨cmd', b', fun rest => by simp [getopt_loop, hx, h' rest]⟩

theorem getopt_loop_pointer_only (opts : List GetoptResult)
    (h : ∀ x ∈ opts, x.option = 'p') (b : Bool) :
    ∃ b', getopt_loop opts none b = Parsed.parsed none b' := by
  induction opts generalizing b with
  | nil => exact ⟨b, rfl⟩
  | cons x xs ih =>
    obtain ⟨b', h'⟩ := ih (fun y hy => h y (by simp [hy])) true
    exact ⟨b', by simp [getopt_loop, h x (by simp), h']⟩

/-- C9, refuted as stated: for `-h` followed by an unknown flag, an argument
vector that contains an unknown flag and has no `-c`, `main` prints the usage
text to standard output and returns 0. -/
theorem help_before_unknown_flag :
    main [{ option := 'h', optarg := none }, { option := '?', optarg := none }]
      setup_good [quiet_tick] =
      { ret := some 0, calls := [Call.usage Stream.stdout] } := by
  decide

/-- C9, amended.  Whatever `-c` and `-p` options come first: if the first
other option `getopt` reports is an unknown flag, `main` prints the usage text
to standard error and returns 1; if it is `-h`, `main` prints the usage text to
standard output and returns 0, whatever follows.  If `getopt` reports nothing
but `-p` options, so that no command is given, `main` prints an error and the
usage text to standard error and returns 1.  In all three cases these are the
only calls: no signal set-up, no connection attempt. -/
theorem usage_paths (before : List GetoptResult) (r : GetoptResult) (rest : List GetoptResult)
    (opts : List GetoptResult) (su : Setup) (ticks : List Tick)
    (hbefore : ∀ x ∈ before, x.option = 'c' ∨ x.option = 'p') :
    (r.option ≠ 'c' → r.option ≠ 'h' → r.option ≠ 'p' →
      main (before ++ r :: rest) su ticks =
        { ret := some 1, calls := [Call.usage Stream.stderr] }) ∧
    (r.option = 'h' →
      main (before ++ r :: rest) su ticks =
        { ret := some 0, calls := [Call.usage Stream.stdout] }) ∧
    ((∀ x ∈ opts, x.option = 'p') →
      main opts su ticks =
        { ret := some 1,
          calls := [Call.fprintf_stderr "ERROR: a command must be provided via -c flag",
                    Call.usage Stream.stderr] }) := by
  obtain ⟨cmd', b', hskip⟩ := getopt_loop_skip before hbefore none false
  refine ⟨?_, ?_, ?_⟩
  · intro h1 h2 h3
    simp [main, hskip, getopt_loop, h1, h2, h3, EXIT_FAILURE]
  · intro h
    have hc : r.option ≠ 'c' := by rw [h]; decide
    simp [main, hskip, getopt_loop, h, EXIT_SUCCESS]
  · intro h
    obtain ⟨b, hb⟩ := getopt_loop_pointer_only opts h false
    simp [main, hb, EXIT_FAILURE]

/-- C9, amended, at concrete argument vectors: `-p -x`, `-c true -h -x`, and
`-p` alone. -/
theorem usage_paths_witness :
    main ([{ option := 'p', optarg := none }] ++ { option := '?', optarg := none } :: [])
      setup_good [quiet_tick] = { ret := some 1, calls := [Call.usage Stream.stderr] } ∧
    main ([{ option := 'c', optarg := some "true" }] ++ { option := 'h', optarg := none } ::
        [{ option := '?', optarg := none }])
      setup_good [quiet_tick] = { ret := some 0, calls := [Call.usage Stream.stdout] } ∧
    main [{ option := 'p', optarg := none }] setup_good [quiet_tick] =
      { ret := some 1,
        calls := [Call.fprintf_stderr "ERROR: a command must be provided via -c flag",
                  Call.usage Stream.stderr] } :=
  ⟨(usage_paths [{ option := 'p', optarg := none }] { option := '?', optarg := none } []
      [] setup_good [quiet_tick] (by decide)).1 (by decide) (by decide) (by decide),
   (usage_paths [{ option := 'c', optarg := some "true" }] { option := 'h', optarg := none }
      [{ option := '?', optarg := none }] [] setup_good [quiet_tick] (by decide)).2.1
      (by decide),
   (usage_paths [] { option := 'h', optarg := none } []
      [{ option := 'p', optarg := none }] setup_good [quiet_tick] (by decide)).2.2
      (by decide)⟩

/-! ## Failing calls -/

end Still
